import Mathlib

/-!
Shallow embedding of the beam-go BEAM feed library: the content model (Feed,
Entry, Author) with validation, the reading-time estimator, the content-hash
integrity layer, conditional-GET serving, and the aggregation cycle
(`Aggregator.FetchAllFeeds`), together with theorems settling the
specification's claims about them.

Concurrency is embedded by making the fan-in arrival order explicit: a cycle
is a function of the list of per-source fetch results in arrival order, the
arrival-order list of indices being a permutation of the source indices (each
goroutine deposits exactly one tagged result in the channel sized to N).
Clock reads are a parameter `clock : Nat -> GoTime` giving the time observed
at each arrival. A Go panic (nil-pointer dereference) is embedded as `none`
in an `Option` codomain.
-/

namespace Beam

/-- White-space test matching Go `unicode.IsSpace`: Latin-1 white space plus
the Unicode space separators used by `strings.TrimSpace` and
`strings.Fields`. -/
def isGoSpace (c : Char) : Bool :=
  c == ' ' || c == '\t' || c == '\n' || c == '\r' || c.toNat == 11 || c.toNat == 12 ||
  c.toNat == 0x85 || c.toNat == 0xA0 || c.toNat == 0x1680 ||
  (0x2000 ≤ c.toNat && c.toNat ≤ 0x200A) || c.toNat == 0x2028 || c.toNat == 0x2029 ||
  c.toNat == 0x202F || c.toNat == 0x205F || c.toNat == 0x3000

/-- Go `strings.TrimSpace`. -/
def trimSpace (s : String) : String :=
  String.mk (((s.toList.dropWhile isGoSpace).reverse.dropWhile isGoSpace).reverse)

/-- Helper for Go `strings.Fields`: counts maximal runs of non-space
characters; `inWord` records whether the previous character was part of a
word. -/
def countFieldsAux : List Char → Bool → Nat
  | [], _ => 0
  | c :: rest, inWord =>
    if isGoSpace c then countFieldsAux rest false
    else (if inWord then 0 else 1) + countFieldsAux rest true

/-- Number of fields of Go `strings.Fields` (word count). -/
def countFields (l : List Char) : Nat :=
  countFieldsAux l false

/-- Go `strings.HasPrefix` on character lists. -/
def hasPrefixOf : List Char → List Char → Bool
  | [], _ => true
  | _ :: _, [] => false
  | a :: as, b :: bs => a == b && hasPrefixOf as bs

/-- Embeds `isValidURL` (part_000): non-empty and prefixed by a scheme. -/
def isValidURL (str : String) : Bool :=
  if str = "" then false
  else hasPrefixOf "http://".toList str.toList || hasPrefixOf "https://".toList str.toList

/-- Go `time.Time` restricted to what the library reads: UTC wall-clock
seconds since the Unix epoch plus nanoseconds (the code normalizes every
stored timestamp with `.UTC()`, so no location is carried). -/
structure GoTime where
  sec : Int
  nsec : Nat
deriving DecidableEq, Repr

/-- Go `time.Time.After`: wall-clock comparison, seconds then nanoseconds. -/
def GoTime.after (t u : GoTime) : Bool :=
  t.sec > u.sec || (t.sec == u.sec && t.nsec > u.nsec)

/-- Go `time.Time.Unix`: seconds since the Unix epoch. -/
def GoTime.unix (t : GoTime) : Int := t.sec

/-- Unix seconds of the zero `time.Time` (January 1, year 1, 00:00:00 UTC). -/
def goTimeZeroSec : Int := -62135596800

/-- Go `time.Time.IsZero`. -/
def GoTime.isZero (t : GoTime) : Bool :=
  t.sec == goTimeZeroSec && t.nsec == 0

/-- Embeds the `Author` struct. -/
structure Author where
  name : String
  email : String
  url : String
deriving DecidableEq, Repr

/-- Embeds the `Entry` struct (part_001). `ReadingTime` is a Go `int` that
only ever holds values of `CalculateReadingTime`, all non-negative, so it is
embedded as `Nat`. -/
structure Entry where
  id : String
  title : String
  content : String
  summary : String
  url : String
  published : GoTime
  updated : Option GoTime
  author : Option Author
  tags : List String
  category : String
  image : String
  readingTime : Nat
deriving DecidableEq, Repr

/-- Embeds the `Feed` struct (part_000); the `*time.Time` and `*Author`
pointer fields become `Option`. -/
structure Feed where
  version : String
  title : String
  description : String
  homePageURL : String
  feedURL : String
  language : String
  author : Option Author
  lastUpdated : Option GoTime
  items : List Entry
deriving DecidableEq, Repr

/-- The supported BEAM protocol version string. -/
def Version : String := "1.0"

/-- Recommended content type for BEAM feeds. -/
def ContentTypeJSON : String := "application/json; charset=utf-8"

/-- Recommended cache control header. -/
def DefaultCacheControl : String := "public, max-age=3600"

/-- Embeds `NewFeed`; `now` is the `time.Now().UTC()` read. -/
def newFeed (title feedURL : String) (now : GoTime) : Feed :=
  { version := Version, title := title, description := "", homePageURL := "",
    feedURL := feedURL, language := "", author := none,
    lastUpdated := some now, items := [] }

/-- Embeds `Feed.AddEntry`; `now` is the `time.Now().UTC()` read. -/
def Feed.addEntry (f : Feed) (e : Entry) (now : GoTime) : Feed :=
  { f with items := f.items ++ [e], lastUpdated := some now }

/-- Embeds `Feed.SetDescription`. -/
def Feed.setDescription (f : Feed) (d : String) : Feed :=
  { f with description := d }

/-- Embeds `Feed.SetLanguage`. -/
def Feed.setLanguage (f : Feed) (l : String) : Feed :=
  { f with language := l }

/-- Embeds `NewEntry`; the model carries UTC wall time directly, so the
`.UTC()` normalization is the identity. -/
def newEntry (id title url : String) (published : GoTime) : Entry :=
  { id := id, title := title, content := "", summary := "", url := url,
    published := published, updated := none, author := none, tags := [],
    category := "", image := "", readingTime := 0 }

/-- Embeds `ValidationError` (error.go). -/
structure ValidationError where
  field : String
  message : String
deriving DecidableEq, Repr

/-- Errors returned by `Feed.Validate`: either a `ValidationError` built by
`NewError`, or an entry's error wrapped as `fmt.Errorf("entry %d: %w", i,
err)`. -/
inductive FeedError where
  | vErr : ValidationError → FeedError
  | entryErr : Nat → ValidationError → FeedError
deriving DecidableEq, Repr

/-- Embeds `Entry.Validate` (part_001); `none` means the entry is valid. -/
def Entry.validate (e : Entry) : Option ValidationError :=
  if trimSpace e.id = "" then some ⟨"id", "id is required"⟩
  else if trimSpace e.title = "" then some ⟨"title", "title is required"⟩
  else if ¬ isValidURL e.url then some ⟨"url", "url must be a valid URL"⟩
  else if e.published.isZero then some ⟨"published", "published timestamp is required"⟩
  else if e.image ≠ "" ∧ ¬ isValidURL e.image then some ⟨"image", "image must be a valid URL"⟩
  else none

/-- The entry loop of `Feed.Validate`: validates each entry in order, then
checks its ID against the set of previously seen IDs (`entryIDs`); the Go
`map[string]bool` is embedded as the list of seen IDs with membership
lookup. -/
def validateItems : List Entry → Nat → List String → Option FeedError
  | [], _, _ => none
  | e :: rest, i, seen =>
    match e.validate with
    | some ve => some (.entryErr i ve)
    | none =>
      if e.id ∈ seen then some (.vErr ⟨"items", "duplicate entry ID: " ++ e.id⟩)
      else validateItems rest (i + 1) (e.id :: seen)

/-- Embeds `Feed.Validate` (part_000); `none` means the feed is valid. -/
def Feed.validate (f : Feed) : Option FeedError :=
  if f.version ≠ Version then
    some (.vErr ⟨"version", "unsupported version: " ++ f.version ++ ", expected: " ++ Version⟩)
  else if trimSpace f.title = "" then
    some (.vErr ⟨"title", "title is required"⟩)
  else if ¬ isValidURL f.feedURL then
    some (.vErr ⟨"feed_url", "feed_url must be a valid URL"⟩)
  else if f.homePageURL ≠ "" ∧ ¬ isValidURL f.homePageURL then
    some (.vErr ⟨"home_page_url", "home_page_url must be a valid URL"⟩)
  else validateItems f.items 0 []

/-- Helper for the tag-stripping regexp `<[^>]*>`: drops characters up to and
including the first `>`, returning the remainder, or `none` when no `>`
remains. -/
def splitAfterGt : List Char → Option (List Char)
  | [] => none
  | c :: rest => if c = '>' then some rest else splitAfterGt rest

/-- Fueled worker for `stripTags`: each step consumes at least one input
character, so fuel `l.length + 1` never runs out. -/
def stripTagsF : Nat → List Char → List Char
  | 0, l => l
  | fuel + 1, l =>
    match l with
    | [] => []
    | c :: rest =>
      if c = '<' then
        match splitAfterGt rest with
        | some after => ' ' :: stripTagsF fuel after
        | none => c :: rest
      else c :: stripTagsF fuel rest

/-- Embeds `regexp.MustCompile("<[^>]*>").ReplaceAllString(content, " ")` on
the character list: each leftmost match `<`…`>` (ending at the first `>`,
since `[^>]*` cannot cross one) is replaced by a single space; a `<` with no
subsequent `>` starts no match. -/
def stripTags (l : List Char) : List Char :=
  stripTagsF (l.length + 1) l

/-- Embeds `CalculateReadingTime` (part_000): empty content short-circuits to
0; otherwise HTML tags are replaced by spaces, words are counted, and the
result is `max (wordCount / 200) 1`. -/
def calculateReadingTime (content : String) : Nat :=
  if content = "" then 0
  else
    max (countFields (stripTags content.toList) / 200) 1

/-- Embeds `Entry.SetContent` (part_001). -/
def Entry.setContent (e : Entry) (content : String) : Entry :=
  { e with content := content, readingTime := calculateReadingTime content }

/-- Left-pads the decimal form of `n` with zeros to width `w`. -/
def padZeros (w n : Nat) : String :=
  let s := toString n
  String.mk (List.replicate (w - s.length) '0') ++ s

/-- Civil date (year, month, day) of a day count since the Unix epoch,
computed with the standard Gregorian conversion (as Go's `time` package
does via its internal absolute-date arithmetic). -/
def civilFromDays (z0 : Int) : Int × Nat × Nat :=
  let z : Int := z0 + 719468
  let era : Int := (if z ≥ 0 then z else z - 146096) / 146097
  let doe : Nat := (z - era * 146097).toNat
  let yoe : Nat := (doe - doe / 1460 + doe / 36524 - doe / 146096) / 365
  let y : Int := (yoe : Int) + era * 400
  let doy : Nat := doe - (365 * yoe + yoe / 4 - yoe / 100)
  let mp : Nat := (5 * doy + 2) / 153
  let d : Nat := doy - (153 * mp + 2) / 5 + 1
  let m : Nat := if mp < 10 then mp + 3 else mp - 9
  (if m ≤ 2 then y + 1 else y, m, d)

/-- Three-letter weekday name, Sunday = 0 (Go `time.Weekday`). -/
def weekdayName : Nat → String
  | 0 => "Sun"
  | 1 => "Mon"
  | 2 => "Tue"
  | 3 => "Wed"
  | 4 => "Thu"
  | 5 => "Fri"
  | _ => "Sat"

/-- Three-letter month name, January = 1 (Go `time.Month`). -/
def monthName : Nat → String
  | 1 => "Jan"
  | 2 => "Feb"
  | 3 => "Mar"
  | 4 => "Apr"
  | 5 => "May"
  | 6 => "Jun"
  | 7 => "Jul"
  | 8 => "Aug"
  | 9 => "Sep"
  | 10 => "Oct"
  | 11 => "Nov"
  | _ => "Dec"

/-- Four-digit year field (Go pads the year to four digits). -/
def pad4Int (y : Int) : String :=
  if y < 0 then "-" ++ padZeros 4 (-y).toNat else padZeros 4 y.toNat

/-- Go `t.Format(http.TimeFormat)`: "Mon, 02 Jan 2006 15:04:05 GMT". -/
def httpTimeFormat (t : GoTime) : String :=
  let days : Int := t.sec.ediv 86400
  let sod : Nat := (t.sec.emod 86400).toNat
  let c := civilFromDays days
  let wd : Nat := ((days + 4).emod 7).toNat
  weekdayName wd ++ ", " ++ padZeros 2 c.2.2 ++ " " ++ monthName c.2.1 ++ " " ++
    pad4Int c.1 ++ " " ++ padZeros 2 (sod / 3600) ++ ":" ++
    padZeros 2 (sod / 60 % 60) ++ ":" ++ padZeros 2 (sod % 60) ++ " GMT"

/-- Go `time.Time.MarshalJSON` body: RFC 3339 with nanoseconds, trailing
fraction zeros trimmed, "Z" for UTC. -/
def rfc3339Nano (t : GoTime) : String :=
  let days : Int := t.sec.ediv 86400
  let sod : Nat := (t.sec.emod 86400).toNat
  let c := civilFromDays days
  let frac : String :=
    if t.nsec = 0 then ""
    else "." ++ String.mk ((((padZeros 9 t.nsec).toList.reverse.dropWhile (· = '0')).reverse))
  pad4Int c.1 ++ "-" ++ padZeros 2 c.2.1 ++ "-" ++ padZeros 2 c.2.2 ++ "T" ++
    padZeros 2 (sod / 3600) ++ ":" ++ padZeros 2 (sod / 60 % 60) ++ ":" ++
    padZeros 2 (sod % 60) ++ frac ++ "Z"

/-- Lower-case hexadecimal digit. -/
def hexDigit (n : Nat) : Char :=
  if n < 10 then Char.ofNat (48 + n) else Char.ofNat (87 + n)

/-- Escape of one character per `encoding/json` (HTML escaping on, as in
`json.Marshal`): quote, backslash, control characters, `<`, `>`, `&`,
U+2028 and U+2029. -/
def escapeChar (c : Char) : List Char :=
  if c = '"' then ['\\', '"']
  else if c = '\\' then ['\\', '\\']
  else if c = '\n' then ['\\', 'n']
  else if c = '\r' then ['\\', 'r']
  else if c = '\t' then ['\\', 't']
  else if c.toNat < 0x20 then
    ['\\', 'u', '0', '0', hexDigit (c.toNat / 16), hexDigit (c.toNat % 16)]
  else if c = '<' then ['\\', 'u', '0', '0', '3', 'c']
  else if c = '>' then ['\\', 'u', '0', '0', '3', 'e']
  else if c = '&' then ['\\', 'u', '0', '0', '2', '6']
  else if c.toNat = 0x2028 then ['\\', 'u', '2', '0', '2', '8']
  else if c.toNat = 0x2029 then ['\\', 'u', '2', '0', '2', '9']
  else [c]

/-- JSON string literal per `encoding/json`. -/
def quoteJSON (s : String) : String :=
  "\"" ++ String.mk (s.toList.map escapeChar).join ++ "\""

/-- JSON values produced by this library: strings, non-negative integers
(`reading_time`), arrays and objects with a fixed field order. -/
inductive JsonV where
  | jstr : String → JsonV
  | jnum : Nat → JsonV
  | jarr : List JsonV → JsonV
  | jobj : List (String × JsonV) → JsonV

mutual

/-- Compact rendering, as `json.Marshal`. -/
def renderJ : JsonV → String
  | .jstr s => quoteJSON s
  | .jnum n => toString n
  | .jarr [] => "[]"
  | .jarr (x :: xs) => "[" ++ renderJ x ++ renderArr xs ++ "]"
  | .jobj [] => "\x7b\x7d"
  | .jobj ((k, v) :: ps) => "\x7b" ++ quoteJSON k ++ ":" ++ renderJ v ++ renderObj ps ++ "\x7d"

/-- Compact rendering of the tail of an array. -/
def renderArr : List JsonV → String
  | [] => ""
  | x :: xs => "," ++ renderJ x ++ renderArr xs

/-- Compact rendering of the tail of an object. -/
def renderObj : List (String × JsonV) → String
  | [] => ""
  | (k, v) :: ps => "," ++ quoteJSON k ++ ":" ++ renderJ v ++ renderObj ps

end

/-- Indentation prefix at nesting depth `d` for `json.MarshalIndent(f, "",
"  ")`. -/
def ind (d : Nat) : String :=
  String.mk (List.replicate (2 * d) ' ')

mutual

/-- Indented rendering, as `json.MarshalIndent(v, "", "  ")`. -/
def renderJI : Nat → JsonV → String
  | _, .jstr s => quoteJSON s
  | _, .jnum n => toString n
  | _, .jarr [] => "[]"
  | d, .jarr (x :: xs) =>
    "[\n" ++ ind (d + 1) ++ renderJI (d + 1) x ++ renderArrI (d + 1) xs ++ "\n" ++ ind d ++ "]"
  | _, .jobj [] => "\x7b\x7d"
  | d, .jobj ((k, v) :: ps) =>
    "\x7b\n" ++ ind (d + 1) ++ quoteJSON k ++ ": " ++ renderJI (d + 1) v ++
      renderObjI (d + 1) ps ++ "\n" ++ ind d ++ "\x7d"

/-- Indented rendering of the tail of an array. -/
def renderArrI : Nat → List JsonV → String
  | _, [] => ""
  | d, x :: xs => ",\n" ++ ind d ++ renderJI d x ++ renderArrI d xs

/-- Indented rendering of the tail of an object. -/
def renderObjI : Nat → List (String × JsonV) → String
  | _, [] => ""
  | d, (k, v) :: ps => ",\n" ++ ind d ++ quoteJSON k ++ ": " ++ renderJI d v ++ renderObjI d ps

end

/-- JSON object for an `Author` (all fields `omitempty`). -/
def Author.toJsonV (a : Author) : JsonV :=
  .jobj ((if a.name = "" then [] else [("name", JsonV.jstr a.name)]) ++
    (if a.email = "" then [] else [("email", JsonV.jstr a.email)]) ++
    (if a.url = "" then [] else [("url", JsonV.jstr a.url)]))

/-- JSON object for an `Entry`, mirroring the struct tags of part_001: field
order as declared, `omitempty` on content, summary, updated, author, tags,
category, image and reading_time. -/
def Entry.toJsonV (e : Entry) : JsonV :=
  .jobj ([("id", JsonV.jstr e.id), ("title", JsonV.jstr e.title)] ++
    (if e.content = "" then [] else [("content", JsonV.jstr e.content)]) ++
    (if e.summary = "" then [] else [("summary", JsonV.jstr e.summary)]) ++
    [("url", JsonV.jstr e.url), ("published", JsonV.jstr (rfc3339Nano e.published))] ++
    (match e.updated with | none => [] | some u => [("updated", JsonV.jstr (rfc3339Nano u))]) ++
    (match e.author with | none => [] | some a => [("author", a.toJsonV)]) ++
    (if e.tags = [] then [] else [("tags", JsonV.jarr (e.tags.map JsonV.jstr))]) ++
    (if e.category = "" then [] else [("category", JsonV.jstr e.category)]) ++
    (if e.image = "" then [] else [("image", JsonV.jstr e.image)]) ++
    (if e.readingTime = 0 then [] else [("reading_time", JsonV.jnum e.readingTime)]))

/-- JSON object for a `Feed`, mirroring the struct tags of part_000; `items`
carries no `omitempty` and is always present. -/
def Feed.toJsonV (f : Feed) : JsonV :=
  .jobj ([("version", JsonV.jstr f.version), ("title", JsonV.jstr f.title)] ++
    (if f.description = "" then [] else [("description", JsonV.jstr f.description)]) ++
    (if f.homePageURL = "" then [] else [("home_page_url", JsonV.jstr f.homePageURL)]) ++
    [("feed_url", JsonV.jstr f.feedURL)] ++
    (if f.language = "" then [] else [("language", JsonV.jstr f.language)]) ++
    (match f.author with | none => [] | some a => [("author", a.toJsonV)]) ++
    (match f.lastUpdated with | none => [] | some t => [("last_updated", JsonV.jstr (rfc3339Nano t))]) ++
    [("items", JsonV.jarr (f.items.map Entry.toJsonV))])

/-- Go `json.Marshal(f.Items)`; every feed this library builds carries a
non-nil `Items` slice, so the empty list renders as "[]". -/
def marshalItems (items : List Entry) : String :=
  renderJ (.jarr (items.map Entry.toJsonV))

/-- Embeds `Feed.ToJSON`: `json.MarshalIndent(f, "", "  ")`. -/
def Feed.toJSON (f : Feed) : String :=
  renderJI 0 f.toJsonV

/-- UTF-8 encoding of one character. -/
def utf8EncodeChar (c : Char) : List Nat :=
  let n := c.toNat
  if n < 0x80 then [n]
  else if n < 0x800 then [0xC0 + n / 64, 0x80 + n % 64]
  else if n < 0x10000 then [0xE0 + n / 4096, 0x80 + n / 64 % 64, 0x80 + n % 64]
  else [0xF0 + n / 262144, 0x80 + n / 4096 % 64, 0x80 + n / 64 % 64, 0x80 + n % 64]

/-- UTF-8 bytes of a string (Go strings are UTF-8 byte sequences). -/
def utf8Bytes (s : String) : List Nat :=
  (s.toList.map utf8EncodeChar).join

/-- Truncation to 32 bits. -/
def w32 (n : Nat) : Nat := n % 4294967296

/-- Right rotation of a 32-bit word. -/
def rotr32 (x n : Nat) : Nat :=
  w32 ((x >>> n) ||| (x <<< (32 - n)))

/-- SHA-256 round constants (decimal). -/
def sha256K : List Nat :=
  [1116352408, 1899447441, 3049323471, 3921009573, 961987163, 1508970993,
   2453635748, 2870763221, 3624381080, 310598401, 607225278, 1426881987,
   1925078388, 2162078206, 2614888103, 3248222580, 3835390401, 4022224774,
   264347078, 604807628, 770255983, 1249150122, 1555081692, 1996064986,
   2554220882, 2821834349, 2952996808, 3210313671, 3336571891, 3584528711,
   113926993, 338241895, 666307205, 773529912, 1294757372, 1396182291,
   1695183700, 1986661051, 2177026350, 2456956037, 2730485921, 2820302411,
   3259730800, 3345764771, 3516065817, 3600352804, 4094571909, 275423344,
   430227734, 506948616, 659060556, 883997877, 958139571, 1322822218,
   1537002063, 1747873779, 1955562222, 2024104815, 2227730452, 2361852424,
   2428436474, 2756734187, 3204031479, 3329325298]

/-- SHA-256 initial hash state (decimal). -/
def sha256H0 : List Nat :=
  [1779033703, 3144134277, 1013904242, 2773480762, 1359893119, 2600822924, 528734635, 1541459225]

/-- Big-endian 8-byte encoding. -/
def be64 (n : Nat) : List Nat :=
  [n >>> 56 % 256, n >>> 48 % 256, n >>> 40 % 256, n >>> 32 % 256,
   n >>> 24 % 256, n >>> 16 % 256, n >>> 8 % 256, n % 256]

/-- SHA-256 padding: 0x80, zeros to 56 mod 64, 8-byte big-endian bit length. -/
def sha256Pad (msg : List Nat) : List Nat :=
  let len := msg.length
  msg ++ [0x80] ++ List.replicate ((119 - len % 64) % 64) 0 ++ be64 (8 * len)

/-- Big-endian 4-byte grouping of a byte list into 32-bit words. -/
def bytesToWords : List Nat → List Nat
  | b0 :: b1 :: b2 :: b3 :: rest =>
    (b0 * 16777216 + b1 * 65536 + b2 * 256 + b3) :: bytesToWords rest
  | _ => []

/-- Fueled worker for `chunk16`: each step consumes at least one word. -/
def chunk16F : Nat → List Nat → List (List Nat)
  | 0, _ => []
  | fuel + 1, l =>
    match l with
    | [] => []
    | x :: xs => (x :: xs).take 16 :: chunk16F fuel ((x :: xs).drop 16)

/-- Splits a word list into chunks of 16 words. -/
def chunk16 (l : List Nat) : List (List Nat) :=
  chunk16F (l.length + 1) l

/-- SHA-256 small sigma 0. -/
def smallSigma0 (x : Nat) : Nat := rotr32 x 7 ^^^ rotr32 x 18 ^^^ (x >>> 3)

/-- SHA-256 small sigma 1. -/
def smallSigma1 (x : Nat) : Nat := rotr32 x 17 ^^^ rotr32 x 19 ^^^ (x >>> 10)

/-- SHA-256 big sigma 0. -/
def bigSigma0 (x : Nat) : Nat := rotr32 x 2 ^^^ rotr32 x 13 ^^^ rotr32 x 22

/-- SHA-256 big sigma 1. -/
def bigSigma1 (x : Nat) : Nat := rotr32 x 6 ^^^ rotr32 x 11 ^^^ rotr32 x 25

/-- Message schedule: the 16 block words extended to 64. -/
def messageSchedule (block : List Nat) : Array Nat :=
  (List.range 48).foldl
    (fun w _ =>
      let i := w.size
      w.push (w32 (smallSigma1 (w.getD (i - 2) 0) + w.getD (i - 7) 0 +
        smallSigma0 (w.getD (i - 15) 0) + w.getD (i - 16) 0)))
    block.toArray

/-- One SHA-256 compression round over the state [a,b,c,d,e,f,g,h]. -/
def sha256Round (w : Array Nat) (st : List Nat) (i : Nat) : List Nat :=
  match st with
  | [a, b, c, d, e, f, g, h] =>
    let t1 := w32 (h + bigSigma1 e + ((e &&& f) ^^^ ((e ^^^ 4294967295) &&& g)) +
      sha256K.getD i 0 + w.getD i 0)
    let t2 := w32 (bigSigma0 a + ((a &&& b) ^^^ (a &&& c) ^^^ (b &&& c)))
    [w32 (t1 + t2), a, b, c, w32 (d + t1), e, f, g]
  | _ => st

/-- SHA-256 compression of one 16-word block into the running state. -/
def sha256Compress (h : List Nat) (block : List Nat) : List Nat :=
  let w := messageSchedule block
  let fin := (List.range 64).foldl (sha256Round w) h
  List.zipWith (fun x y => w32 (x + y)) h fin

/-- Big-endian bytes of one 32-bit word. -/
def wordToBytes (n : Nat) : List Nat :=
  [n >>> 24 % 256, n >>> 16 % 256, n >>> 8 % 256, n % 256]

/-- SHA-256 digest bytes of a byte message. -/
def sha256Bytes (msg : List Nat) : List Nat :=
  (((chunk16 (bytesToWords (sha256Pad msg))).foldl sha256Compress sha256H0).map wordToBytes).join

/-- Lower-case hex of one byte. -/
def byteToHex (b : Nat) : String :=
  String.mk [hexDigit (b / 16), hexDigit (b % 16)]

/-- Lower-case hex of a byte list (Go `hex.EncodeToString`). -/
def hexEncode (bs : List Nat) : String :=
  String.join (bs.map byteToHex)

/-- Embeds `Feed.ComputeFeedHash` (part_000): SHA-256 over
`json.Marshal(f.Items)`, hex encoded. The `json.Marshal` error branch is
unreachable for this struct, so the embedding is total. -/
def Feed.computeFeedHash (f : Feed) : String :=
  hexEncode (sha256Bytes (utf8Bytes (marshalItems f.items)))

/-- Embeds `Feed.ValidateFeedHash` (part_000): recomputes and compares;
`some` carries the trust-violation error message. -/
def Feed.validateFeedHash (f : Feed) (expectedHash : String) : Option String :=
  if f.computeFeedHash ≠ expectedHash then
    some "feed hash mismatch: data may not be trustworthy"
  else none

/-- HTTP request as read by the handlers: only the If-None-Match header is
consulted; `Header.Get` yields "" when the header is absent. -/
structure Request where
  ifNoneMatch : String
deriving DecidableEq, Repr

/-- HTTP response: status code, headers in the order they are set, body. -/
structure Response where
  status : Nat
  headers : List (String × String)
  body : String
deriving DecidableEq, Repr

/-- ETag built by `Feed.ServeHTTP`:
`fmt.Sprintf("\"beam-%d-%d\"", f.LastUpdated.Unix(), len(f.Items))`. -/
def etagOf (unixSec : Int) (count : Nat) : String :=
  "\"beam-" ++ toString unixSec ++ "-" ++ toString count ++ "\""

/-- Headers `Feed.ServeHTTP` sets, in order: the Last-Modified header is
guarded by `f.LastUpdated != nil` in the code, but in the only branch that
responds (non-nil `LastUpdated`, see below) it is always present. -/
def serveHeaders (t : GoTime) (etag : String) : List (String × String) :=
  [("Content-Type", ContentTypeJSON), ("Cache-Control", DefaultCacheControl),
   ("Last-Modified", httpTimeFormat t), ("ETag", etag)]

/-- The 304 Not Modified response `Feed.ServeHTTP` sends: headers already
set, `WriteHeader(304)`, no body written. -/
def resp304 (t : GoTime) (etag : String) : Response :=
  { status := 304, headers := serveHeaders t etag, body := "" }

/-- The 200 response `Feed.ServeHTTP` sends: the indented JSON document. -/
def resp200 (f : Feed) (t : GoTime) (etag : String) : Response :=
  { status := 200, headers := serveHeaders t etag, body := f.toJSON }

/-- Embeds `Feed.ServeHTTP` (part_000): ETag from the last-updated time and
item count, 304 with empty body on an exact If-None-Match match, otherwise
200 with the indented JSON document. The ETag line dereferences
`f.LastUpdated` unconditionally, so a nil `LastUpdated` crashes the handler
(`none`). The `ToJSON` error branch is unreachable (`json.MarshalIndent`
cannot fail on this struct). -/
def Feed.serveHTTP (f : Feed) (r : Request) : Option Response :=
  match f.lastUpdated with
  | none => none
  | some t =>
    let etag := etagOf t.unix f.items.length
    if r.ifNoneMatch = etag then some (resp304 t etag)
    else some (resp200 f t etag)

/-- Embeds the `FeedSource` struct (part_001). -/
structure FeedSource where
  url : String
  name : String
  description : String
  lastFetch : GoTime
  status : String
  errorMsg : String
deriving DecidableEq, Repr

/-- The zero `time.Time`. -/
def goTimeZero : GoTime := ⟨goTimeZeroSec, 0⟩

/-- Embeds the `Aggregator` struct: the source registry and the published
feed pointer (`nil` becomes `none`); the mutex and timeout carry no data
relevant to the claims. -/
structure Aggregator where
  sources : List FeedSource
  aggregatedFeed : Option Feed
deriving DecidableEq, Repr

/-- Embeds `NewAggregator`: the published feed starts as a non-nil empty
feed, not as nil. -/
def newAggregator (title feedURL : String) (now : GoTime) : Aggregator :=
  { sources := [], aggregatedFeed := some (newFeed title feedURL now) }

/-- Embeds `Aggregator.AddSource`: appends with status "new" and the zero
last-fetch time. -/
def Aggregator.addSource (a : Aggregator) (url name description : String) : Aggregator :=
  { a with sources := a.sources ++
      [{ url := url, name := name, description := description,
         lastFetch := goTimeZero, status := "new", errorMsg := "" }] }

/-- One fan-in message of `FetchAllFeeds`: the source index the goroutine was
tagged with and the outcome of `fetchFeedWithTimeout` (error string or
fetched, validated feed). -/
structure FetchResult where
  index : Nat
  res : Except String Feed

/-- Source annotation applied to each collected entry (part_001, lines
192-205): the summary is prefixed with the source name, or replaced by
"From name" when empty. -/
def enrichEntry (srcName : String) (e : Entry) : Entry :=
  if e.summary ≠ "" then { e with summary := "[" ++ srcName ++ "] " ++ e.summary }
  else { e with summary := "From " ++ srcName }

/-- Placeholder source for out-of-range reads; the cycle only ever indexes
in range (each goroutine is tagged with a valid index). -/
def defaultSource : FeedSource :=
  { url := "", name := "", description := "", lastFetch := goTimeZero,
    status := "", errorMsg := "" }

/-- Processing of one arrived fetch result (the body of the fan-in loop):
update LastFetch, set status/error message, and on success append the
source-annotated entries. -/
def applyResult (now : GoTime) (sources : List FeedSource) (acc : List Entry)
    (r : FetchResult) : List FeedSource × List Entry :=
  let src0 := sources.getD r.index defaultSource
  match r.res with
  | .error msg =>
    (sources.set r.index { src0 with lastFetch := now, status := "error", errorMsg := msg }, acc)
  | .ok fd =>
    let sources1 := sources.set r.index
      { src0 with lastFetch := now, status := "active", errorMsg := "" }
    let name := (sources1.getD r.index defaultSource).name
    (sources1, acc ++ fd.items.map (enrichEntry name))

/-- Fan-in loop of `FetchAllFeeds` over the results in arrival order; `k`
counts arrivals so that `clock k` is the `time.Now()` read at the k-th
receive. -/
def processResults (clock : Nat → GoTime) :
    Nat → List FeedSource → List Entry → List FetchResult → List FeedSource × List Entry
  | _, sources, acc, [] => (sources, acc)
  | k, sources, acc, r :: rs =>
    let p := applyResult (clock k) sources acc r
    processResults clock (k + 1) p.1 p.2 rs

/-- The `allEntries` sequence a cycle collects (merge of all successful
sources' annotated entries, in arrival order). -/
def collectedEntries (agg : Aggregator) (clock : Nat → GoTime)
    (results : List FetchResult) : List Entry :=
  (processResults clock 0 agg.sources [] results).2

/-- Embeds `Aggregator.FetchAllFeeds` (part_001). Parameters beyond the
aggregator make the concurrency explicit: `results` is the fan-in arrival
order, `clock` the successive `time.Now()` reads, `pubNow` the clock read
used while building the new feed, and `sortFn` the permutation applied by
`sort.Slice` with less = `Published.After` (the standard library promises a
sorted permutation but not a stable one; `sortEntriesGo` below is the
concrete Go 1.19+ algorithm). `none` embeds a crash: the code dereferences
`a.AggregatedFeed` for the title, so a nil published feed would crash. The
function otherwise always returns `Except.ok`: no path returns a non-nil
error. -/
def Aggregator.fetchAllFeeds (agg : Aggregator) (results : List FetchResult)
    (clock : Nat → GoTime) (pubNow : GoTime)
    (sortFn : List Entry → List Entry) : Option (Except String Aggregator) :=
  match agg.aggregatedFeed with
  | none => none
  | some f0 =>
    let pr := processResults clock 0 agg.sources [] results
    let sorted := sortFn pr.2
    let capped := if sorted.length > 100 then sorted.take 100 else sorted
    let nf := ((newFeed f0.title f0.feedURL pubNow).setDescription
      ("Aggregated content from " ++ toString pr.1.length ++ " sources")).setLanguage "en-US"
    let nf2 := capped.foldl (fun f e => f.addEntry e pubNow) nf
    some (.ok { agg with sources := pr.1, aggregatedFeed := some nf2 })

/-- Count of sources with a given status, as the `GetStats` switch tallies
"active" and "error". -/
def countStatus (l : List FeedSource) (s : String) : Nat :=
  (l.filter (fun src => src.status == s)).length

/-- Embeds `Aggregator.ServeHTTP` (part_001): 503 when no feed pointer is
set (`http.Error` with text/plain headers), otherwise delegate to the
feed's handler. -/
def Aggregator.serveHTTP (a : Aggregator) (r : Request) : Option Response :=
  let unavailable : Response :=
    { status := 503,
      headers := [("Content-Type", "text/plain; charset=utf-8"),
        ("X-Content-Type-Options", "nosniff")],
      body := "Aggregated feed not available\n" }
  match a.aggregatedFeed with
  | none => some unavailable
  | some f => f.serveHTTP r

/-- Go `bits.Len`. -/
def goBitsLen (n : Nat) : Nat :=
  if n = 0 then 0 else Nat.log2 n + 1

/-- Indexed read used by the `sort.Slice` port (always in range during a
sort). -/
def lget (dflt : α) (l : List α) (i : Nat) : α :=
  l.getD i dflt

/-- Index swap, the only mutation `sort.Slice` performs. -/
def lswap (dflt : α) (l : List α) (i j : Nat) : List α :=
  (l.set i (lget dflt l j)).set j (lget dflt l i)

/-- Go `sort` package xorshift step (64-bit). -/
def xorshiftNext (r : Nat) : Nat :=
  let r1 := (r ^^^ (r <<< 13)) % 18446744073709551616
  let r2 := r1 ^^^ (r1 >>> 7)
  (r2 ^^^ (r2 <<< 17)) % 18446744073709551616

/-- Inner loop of `insertionSort_func`: shift element `j` left while smaller
than its predecessor and above `a` (fuel `j + 1` suffices, as `j`
decreases each step). -/
def insSortInner (less : α → α → Bool) (dflt : α) (a : Nat) :
    Nat → List α → Nat → List α
  | 0, l, _ => l
  | fuel + 1, l, j =>
    if a < j ∧ less (lget dflt l j) (lget dflt l (j - 1)) then
      insSortInner less dflt a fuel (lswap dflt l j (j - 1)) (j - 1)
    else l

/-- Port of `insertionSort_func(data, a, b)`. -/
def insertionSortGo (less : α → α → Bool) (dflt : α) (l : List α) (a b : Nat) : List α :=
  (List.range' (a + 1) (b - (a + 1))).foldl (fun acc i => insSortInner less dflt a (i + 1) acc i) l

/-- Port of `siftDown_func(data, lo, hi, first)` (fuel bounds the walk down
the heap; `hi` always suffices). -/
def siftDownGo (less : α → α → Bool) (dflt : α) (hi first : Nat) :
    Nat → List α → Nat → List α
  | 0, l, _ => l
  | fuel + 1, l, root =>
    let child := 2 * root + 1
    if child ≥ hi then l
    else
      let child2 := if child + 1 < hi ∧
          less (lget dflt l (first + child)) (lget dflt l (first + child + 1)) then
        child + 1 else child
      if less (lget dflt l (first + root)) (lget dflt l (first + child2)) then
        siftDownGo less dflt hi first fuel (lswap dflt l (first + root) (first + child2)) child2
      else l

/-- Port of `heapSort_func(data, a, b)`. -/
def heapSortGo (less : α → α → Bool) (dflt : α) (l : List α) (a b : Nat) : List α :=
  let first := a
  let hi := b - a
  let l1 := ((List.range ((hi - 1) / 2 + 1)).reverse).foldl
    (fun acc i => siftDownGo less dflt hi first (hi + 1) acc i) l
  ((List.range hi).reverse).foldl
    (fun acc i => siftDownGo less dflt i first (hi + 1) (lswap dflt acc first (first + i)) 0) l1

/-- Port of `breakPatterns_func(data, a, b)`: three pseudo-random swaps when
the range has at least 8 elements, xorshift seeded with the length. -/
def breakPatternsGo (dflt : α) (l : List α) (a b : Nat) : List α :=
  let length := b - a
  if length ≥ 8 then
    let modulus := 1 <<< goBitsLen length
    let idx := a + length / 4 * 2 - 1
    let step := fun (st : List α × Nat) (i : Nat) =>
      let r := xorshiftNext st.2
      let other0 := r &&& (modulus - 1)
      let other := if other0 ≥ length then other0 - length else other0
      (lswap dflt st.1 (idx - 1 + i) (a + other), r)
    ([0, 1, 2].foldl step (l, length)).1
  else l

/-- Port of `order2_func`: orders two indices by the pointed-to elements,
counting a swap. -/
def order2Go (less : α → α → Bool) (dflt : α) (l : List α) (a b swaps : Nat) :
    Nat × Nat × Nat :=
  if less (lget dflt l b) (lget dflt l a) then (b, a, swaps + 1) else (a, b, swaps)

/-- Port of `median_func`: index of the median of three elements. -/
def medianGo (less : α → α → Bool) (dflt : α) (l : List α) (a b c swaps : Nat) :
    Nat × Nat :=
  let p1 := order2Go less dflt l a b swaps
  let p2 := order2Go less dflt l p1.2.1 c p1.2.2
  let p3 := order2Go less dflt l p1.1 p2.1 p2.2.2
  (p3.2.1, p3.2.2)

/-- Port of `medianAdjacent_func`. -/
def medianAdjacentGo (less : α → α → Bool) (dflt : α) (l : List α) (a swaps : Nat) :
    Nat × Nat :=
  medianGo less dflt l (a - 1) a (a + 1) swaps

/-- Port of `choosePivot_func`: returns the pivot index and the sortedness
hint (1 = increasing, 2 = decreasing, 0 = unknown). -/
def choosePivotGo (less : α → α → Bool) (dflt : α) (l : List α) (a b : Nat) :
    Nat × Nat :=
  let len := b - a
  let i0 := a + len / 4 * 1
  let j0 := a + len / 4 * 2
  let k0 := a + len / 4 * 3
  if len ≥ 8 then
    let t :=
      if len ≥ 50 then
        let mi := medianAdjacentGo less dflt l i0 0
        let mj := medianAdjacentGo less dflt l j0 mi.2
        let mk := medianAdjacentGo less dflt l k0 mj.2
        medianGo less dflt l mi.1 mj.1 mk.1 mk.2
      else
        medianGo less dflt l i0 j0 k0 0
    (t.1, if t.2 = 0 then 1 else if t.2 = 12 then 2 else 0)
  else (j0, 1)

/-- Port of `reverseRange_func`. -/
def reverseRangeGo (dflt : α) : Nat → List α → Nat → Nat → List α
  | 0, l, _, _ => l
  | fuel + 1, l, i, j =>
    if i < j then reverseRangeGo dflt fuel (lswap dflt l i j) (i + 1) (j - 1) else l

/-- Advance of `i` in `partialInsertionSort_func`: first adjacent
out-of-order position at or after `i`. -/
def pisAdvance (less : α → α → Bool) (dflt : α) (b : Nat) (l : List α) :
    Nat → Nat → Nat
  | 0, i => i
  | fuel + 1, i =>
    if i < b ∧ ¬ less (lget dflt l i) (lget dflt l (i - 1)) then
      pisAdvance less dflt b l fuel (i + 1)
    else i

/-- Leftward shift loop of `partialInsertionSort_func` (fuel `j + 1`
suffices, as `j` decreases each step). -/
def pisShiftLeft (less : α → α → Bool) (dflt : α) :
    Nat → List α → Nat → List α
  | 0, l, _ => l
  | fuel + 1, l, j =>
    if 1 ≤ j ∧ less (lget dflt l j) (lget dflt l (j - 1)) then
      pisShiftLeft less dflt fuel (lswap dflt l j (j - 1)) (j - 1)
    else l

/-- Rightward shift loop of `partialInsertionSort_func`. -/
def pisShiftRight (less : α → α → Bool) (dflt : α) (b : Nat) :
    Nat → List α → Nat → List α
  | 0, l, _ => l
  | fuel + 1, l, j =>
    if j < b ∧ less (lget dflt l j) (lget dflt l (j - 1)) then
      pisShiftRight less dflt b fuel (lswap dflt l j (j - 1)) (j + 1)
    else l

/-- Port of `partialInsertionSort_func(data, a, b)`: up to 5 adjacent
out-of-order pairs are repaired; returns the data and whether the range
ended sorted. -/
def partialInsertionSortGo (less : α → α → Bool) (dflt : α) (a b : Nat) :
    Nat → List α → Nat → List α × Bool
  | 0, l, _ => (l, false)
  | steps + 1, l, i =>
    let i1 := pisAdvance less dflt b l (b + 1) i
    if i1 = b then (l, true)
    else if b - a < 50 then (l, false)
    else
      let l1 := lswap dflt l i1 (i1 - 1)
      let l2 := if i1 - a ≥ 2 then pisShiftLeft less dflt i1 l1 (i1 - 1) else l1
      let l3 := if b - i1 ≥ 2 then pisShiftRight less dflt b (b + 1) l2 (i1 + 1) else l2
      partialInsertionSortGo less dflt a b steps l3 i1

/-- Advance of `i` in `partition_func`: while `i ≤ j` and element `i` is
less than the pivot at `a`. -/
def partAdvanceI (less : α → α → Bool) (dflt : α) (l : List α) (a j : Nat) :
    Nat → Nat → Nat
  | 0, i => i
  | fuel + 1, i =>
    if i ≤ j ∧ less (lget dflt l i) (lget dflt l a) then
      partAdvanceI less dflt l a j fuel (i + 1)
    else i

/-- Retreat of `j` in `partition_func`: while `i ≤ j` and element `j` is not
less than the pivot at `a`. -/
def partRetreatJ (less : α → α → Bool) (dflt : α) (l : List α) (a i : Nat) :
    Nat → Nat → Nat
  | 0, j => j
  | fuel + 1, j =>
    if i ≤ j ∧ ¬ less (lget dflt l j) (lget dflt l a) then
      partRetreatJ less dflt l a i fuel (j - 1)
    else j

/-- Main swap loop of `partition_func` after the first exchange. -/
def partitionLoop (less : α → α → Bool) (dflt : α) (a n : Nat) :
    Nat → List α → Nat → Nat → List α × Nat
  | 0, l, _, j => (l, j)
  | fuel + 1, l, i, j =>
    let i1 := partAdvanceI less dflt l a j (n + 2) i
    let j1 := partRetreatJ less dflt l a i1 (n + 2) j
    if i1 > j1 then (l, j1)
    else partitionLoop less dflt a n fuel (lswap dflt l i1 j1) (i1 + 1) (j1 - 1)

/-- Port of `partition_func(data, a, b, pivot)`: returns the data, the new
pivot position, and whether the range was already partitioned. -/
def partitionGo (less : α → α → Bool) (dflt : α) (n : Nat) (l0 : List α)
    (a b pivot : Nat) : List α × Nat × Bool :=
  let l := lswap dflt l0 a pivot
  let i1 := partAdvanceI less dflt l a (b - 1) (n + 2) (a + 1)
  let j1 := partRetreatJ less dflt l a i1 (n + 2) (b - 1)
  if i1 > j1 then (lswap dflt l j1 a, j1, true)
  else
    let p := partitionLoop less dflt a n (n + 2) (lswap dflt l i1 j1) (i1 + 1) (j1 - 1)
    (lswap dflt p.1 p.2 a, p.2, false)

/-- Advance of `i` in `partitionEqual_func`: while the pivot is not less
than element `i`. -/
def peqAdvanceI (less : α → α → Bool) (dflt : α) (l : List α) (a j : Nat) :
    Nat → Nat → Nat
  | 0, i => i
  | fuel + 1, i =>
    if i ≤ j ∧ ¬ less (lget dflt l a) (lget dflt l i) then
      peqAdvanceI less dflt l a j fuel (i + 1)
    else i

/-- Retreat of `j` in `partitionEqual_func`: while the pivot is less than
element `j`. -/
def peqRetreatJ (less : α → α → Bool) (dflt : α) (l : List α) (a i : Nat) :
    Nat → Nat → Nat
  | 0, j => j
  | fuel + 1, j =>
    if i ≤ j ∧ less (lget dflt l a) (lget dflt l j) then
      peqRetreatJ less dflt l a i fuel (j - 1)
    else j

/-- Swap loop of `partitionEqual_func`. -/
def partitionEqualLoop (less : α → α → Bool) (dflt : α) (a n : Nat) :
    Nat → List α → Nat → Nat → List α × Nat
  | 0, l, i, _ => (l, i)
  | fuel + 1, l, i, j =>
    let i1 := peqAdvanceI less dflt l a j (n + 2) i
    let j1 := peqRetreatJ less dflt l a i1 (n + 2) j
    if i1 > j1 then (l, i1)
    else partitionEqualLoop less dflt a n fuel (lswap dflt l i1 j1) (i1 + 1) (j1 - 1)

/-- Port of `partitionEqual_func(data, a, b, pivot)`: returns the data and
the first position after the run equal to the pivot. -/
def partitionEqualGo (less : α → α → Bool) (dflt : α) (n : Nat) (l0 : List α)
    (a b pivot : Nat) : List α × Nat :=
  partitionEqualLoop less dflt a n (n + 2) (lswap dflt l0 a pivot) (a + 1) (b - 1)

/-- Port of `pdqsort_func(data, a, b, limit)`; the fuel bounds loop
iterations plus recursion and is chosen ample by `goSortSlice`. -/
def pdqsortLoop (less : α → α → Bool) (dflt : α) (n : Nat) :
    Nat → List α → Nat → Nat → Nat → Bool → Bool → List α
  | 0, l, _, _, _, _, _ => l
  | fuel + 1, l, a, b, limit, wasBalanced, wasPartitioned =>
    let length := b - a
    if length ≤ 12 then insertionSortGo less dflt l a b
    else if limit = 0 then heapSortGo less dflt l a b
    else
      let bp := if ¬ wasBalanced then (breakPatternsGo dflt l a b, limit - 1) else (l, limit)
      let l1 := bp.1
      let limit1 := bp.2
      let cp := choosePivotGo less dflt l1 a b
      let rv := if cp.2 = 2 then (reverseRangeGo dflt (n + 2) l1 a b, (b - 1) - (cp.1 - a), 1)
        else (l1, cp.1, cp.2)
      let l2 := rv.1
      let pivot := rv.2.1
      let hint := rv.2.2
      let pis := if wasBalanced ∧ wasPartitioned ∧ hint = 1 then
          partialInsertionSortGo less dflt a b 5 l2 (a + 1)
        else (l2, false)
      if pis.2 then pis.1
      else
        let l3 := pis.1
        if 0 < a ∧ ¬ less (lget dflt l3 (a - 1)) (lget dflt l3 pivot) then
          let pe := partitionEqualGo less dflt n l3 a b pivot
          pdqsortLoop less dflt n fuel pe.1 pe.2 b limit1 wasBalanced wasPartitioned
        else
          let pt := partitionGo less dflt n l3 a b pivot
          let l4 := pt.1
          let mid := pt.2.1
          let wasPartitioned1 := pt.2.2
          let leftLen := mid - a
          let rightLen := b - mid
          let wasBalanced1 := min leftLen rightLen ≥ length / 8
          if leftLen < rightLen then
            let l5 := pdqsortLoop less dflt n fuel l4 a mid limit1 true true
            pdqsortLoop less dflt n fuel l5 (mid + 1) b limit1 wasBalanced1 wasPartitioned1
          else
            let l5 := pdqsortLoop less dflt n fuel l4 (mid + 1) b limit1 true true
            pdqsortLoop less dflt n fuel l5 a mid limit1 wasBalanced1 wasPartitioned1

/-- Port of `sort.Slice(x, less)` for Go 1.19 and later:
`pdqsort(data, 0, n, bits.Len(uint(n)))`. -/
def goSortSlice (less : α → α → Bool) (dflt : α) (l : List α) : List α :=
  let n := l.length
  pdqsortLoop less dflt n (8 * n + 64) l 0 n (goBitsLen n) true true

/-- The comparison `FetchAllFeeds` passes to `sort.Slice`:
`allEntries[i].Published.After(allEntries[j].Published)` (newest first). -/
def entryLess (x y : Entry) : Bool :=
  x.published.after y.published

/-- Placeholder entry for the sort port. -/
def defaultEntry : Entry := newEntry "" "" "" goTimeZero

/-- The concrete sorting pass of `FetchAllFeeds` under a Go 1.19+ toolchain:
`sort.Slice` on entries by descending published time. -/
def sortEntriesGo (l : List Entry) : List Entry :=
  goSortSlice entryLess defaultEntry l

/-- Everything `sort.Slice` guarantees about its output across Go versions:
a permutation of the input, non-decreasing in the less relation (here:
non-increasing published timestamps). Stability is deliberately NOT part of
this contract. -/
def SortSliceOK (input output : List Entry) : Prop :=
  output.Perm input ∧ output.Pairwise (fun x y => entryLess y x = false)

/-- Items of the published feed after a cycle; empty for a crashed or failed
cycle. -/
def publishedItems (x : Option (Except String Aggregator)) : List Entry :=
  match x with
  | some (.ok a) =>
    match a.aggregatedFeed with
    | some f => f.items
    | none => []
  | _ => []

/-- Source list after the fan-in loop of a cycle. -/
def sourcesAfter (agg : Aggregator) (clock : Nat → GoTime)
    (results : List FetchResult) : List FeedSource :=
  (processResults clock 0 agg.sources [] results).1

/-- Whether a fetch result is a failure (`err != nil`). -/
def FetchResult.failed (r : FetchResult) : Bool :=
  match r.res with
  | .error _ => true
  | .ok _ => false

/-- The source-record update a cycle applies for one arrived result. -/
def updatedSource (src : FeedSource) (r : FetchResult) (now : GoTime) : FeedSource :=
  match r.res with
  | .error msg => { src with lastFetch := now, status := "error", errorMsg := msg }
  | .ok _ => { src with lastFetch := now, status := "active", errorMsg := "" }

/-- Modelled from the spec: the reading-time formula of section 4.1 —
"strip HTML tags, split on whitespace, word count / 200 (words/minute),
floor, minimum 1" — stated with no special case for empty content, for
comparison with `calculateReadingTime`. -/
def readingTimeSpec (content : String) : Nat :=
  max (countFields (stripTags content.toList) / 200) 1

/-- Modelled from the spec: the first entry identifier that repeats an
earlier one, in first-seen order ("fails ... on first duplicate entry
identifier (first-seen order)"); `seen` carries identifiers of entries
already scanned. -/
def firstDupFrom (seen : List String) : List Entry → Option String
  | [] => none
  | e :: rest => if e.id ∈ seen then some e.id else firstDupFrom (e.id :: seen) rest

/-- First duplicated entry identifier of an item list, if any. -/
def firstDupId (items : List Entry) : Option String :=
  firstDupFrom [] items

/-- Value of the ETag header of a response, when present. -/
def etagHeader (resp : Response) : Option String :=
  (resp.headers.find? (fun p => p.1 == "ETag")).map Prod.snd

/-- C7 counterexample: the claim says the reading-time estimate is at least
1 for every input including empty content, but `CalculateReadingTime("")`
short-circuits to 0 (the spec formula would give 1). -/
theorem c7_counterexample : calculateReadingTime "" = 0 ∧ readingTimeSpec "" = 1 := by
  exact ⟨rfl, rfl⟩

/-- C7 (amended): for every non-empty content string the estimate equals the
spec formula — word count of the tag-stripped text divided by 200, floored,
minimum 1 — and is therefore at least 1; empty content yields 0; and
`Entry.SetContent` recomputes the estimate whenever content is set. -/
theorem c7_reading_time (content : String) (hne : content ≠ "") :
    calculateReadingTime content = readingTimeSpec content ∧
    1 ≤ calculateReadingTime content ∧
    (∀ (e : Entry) (c : String),
      (e.setContent c).readingTime = calculateReadingTime c ∧ (e.setContent c).content = c) := by
  refine ⟨?_, ?_, fun e c => ⟨rfl, rfl⟩⟩
  · unfold calculateReadingTime readingTimeSpec countFields
    rw [if_neg hne]
  · unfold calculateReadingTime
    rw [if_neg hne]
    exact Nat.le_max_right _ _

/-- C7 witness: the amended claim at a concrete content string. -/
theorem c7_reading_time_witness :
    calculateReadingTime "a short article body" = readingTimeSpec "a short article body" ∧
    1 ≤ calculateReadingTime "a short article body" ∧
    (∀ (e : Entry) (c : String),
      (e.setContent c).readingTime = calculateReadingTime c ∧ (e.setContent c).content = c) :=
  c7_reading_time "a short article body" (by decide)

/-- C9: `ComputeFeedHash` is a pure function of the item sequence (feeds
with equal items hash identically, so re-running on an unchanged sequence
reproduces the hash), and `ValidateFeedHash` fails — with the
trust-violation message — exactly when the recomputed hash differs from the
expected value; being pure, it leaves the feed unchanged. -/
theorem c9_content_hash (f g : Feed) (hitems : f.items = g.items) (expected : String) :
    f.computeFeedHash = g.computeFeedHash ∧
    (f.validateFeedHash expected = none ↔ f.computeFeedHash = expected) ∧
    (f.validateFeedHash expected = none ∨
      f.validateFeedHash expected = some "feed hash mismatch: data may not be trustworthy") := by
  refine ⟨?_, ?_, ?_⟩
  · unfold Feed.computeFeedHash
    rw [hitems]
  · unfold Feed.validateFeedHash
    by_cases h : f.computeFeedHash = expected
    · simp [h]
    · simp [h]
  · unfold Feed.validateFeedHash
    by_cases h : f.computeFeedHash = expected
    · exact Or.inl (by simp [h])
    · exact Or.inr (by simp [h])

/-- Concrete feed for the C9 witness. -/
def c9FeedA : Feed :=
  (newFeed "A" "https://a.example/feed.json" ⟨1700000000, 0⟩).addEntry
    (newEntry "e1" "Title" "https://a.example/1" ⟨1700000100, 0⟩) ⟨1700000200, 0⟩

/-- Same items as `c9FeedA`, different metadata. -/
def c9FeedB : Feed :=
  { c9FeedA with title := "B", description := "other metadata" }

/-- C9 witness: the hash theorem at two concrete feeds sharing items. -/
theorem c9_content_hash_witness :
    c9FeedA.computeFeedHash = c9FeedB.computeFeedHash ∧
    (c9FeedA.validateFeedHash "" = none ↔ c9FeedA.computeFeedHash = "") ∧
    (c9FeedA.validateFeedHash "" = none ∨
      c9FeedA.validateFeedHash "" = some "feed hash mismatch: data may not be trustworthy") :=
  c9_content_hash c9FeedA c9FeedB rfl ""

/-- Feed with a nil `LastUpdated` that nevertheless passes `Validate`
(validation never inspects `LastUpdated`), as `FromJSON` produces for a
document omitting `last_updated`. -/
def c10Feed : Feed :=
  { version := "1.0", title := "Orphan", description := "", homePageURL := "",
    feedURL := "https://example.com/feed.json", language := "", author := none,
    lastUpdated := none, items := [] }

/-- C10: `Feed.ServeHTTP` is not total in `LastUpdated` — for every feed
with a nil `LastUpdated` the handler crashes with a nil-pointer dereference
on the ETag line instead of returning a response; and such feeds pass
`Validate` (witnessed by `c10Feed`). -/
theorem c10_serve_crashes_on_nil_last_updated :
    (∀ (f : Feed) (r : Request), f.lastUpdated = none → f.serveHTTP r = none) ∧
    (c10Feed.lastUpdated = none ∧ c10Feed.validate = none) := by
  refine ⟨?_, rfl, by decide⟩
  intro f r h
  unfold Feed.serveHTTP
  rw [h]

/-- C10 witness: the crash theorem applied to the concrete validated feed. -/
theorem c10_serve_crashes_witness :
    c10Feed.serveHTTP ⟨""⟩ = none ∧ c10Feed.validate = none :=
  ⟨c10_serve_crashes_on_nil_last_updated.1 c10Feed ⟨""⟩ rfl,
   c10_serve_crashes_on_nil_last_updated.2.2⟩

/-- C5 counterexample: a GET on a freshly constructed aggregator — no cycle
has ever run, so no feed has ever been published by a cycle — answers 200
with the initial empty feed, not 503: `NewAggregator` initializes
`AggregatedFeed` to a non-nil empty feed. -/
theorem c5_counterexample :
    ((newAggregator "Tech News Aggregator" "http://localhost:8181/feed.json"
      ⟨1700000000, 0⟩).serveHTTP ⟨""⟩).map Response.status = some 200 := by
  decide

/-- C5 (amended): the feed endpoint answers 503 exactly when the published
feed pointer is nil; `NewAggregator` precludes that state by initializing a
non-nil empty feed, so every request served before the first cycle gets that
initial feed (200, or 304 on a matching If-None-Match), never 503. -/
theorem c5_serve_before_first_cycle :
    (∀ (a : Aggregator) (r : Request), a.aggregatedFeed = none →
      (a.serveHTTP r).map Response.status = some 503) ∧
    (∀ (title feedURL : String) (now : GoTime) (r : Request),
      ((newAggregator title feedURL now).serveHTTP r).map Response.status = some 304 ∨
      ((newAggregator title feedURL now).serveHTTP r).map Response.status = some 200) := by
  constructor
  · intro a r h
    unfold Aggregator.serveHTTP
    rw [h]
    rfl
  · intro title feedURL now r
    by_cases h : r.ifNoneMatch = etagOf now.unix 0
    · left
      simp [Aggregator.serveHTTP, newAggregator, newFeed, Feed.serveHTTP, h, resp304, resp200]
    · right
      simp [Aggregator.serveHTTP, newAggregator, newFeed, Feed.serveHTTP, h, resp304, resp200]

theorem foldl_addEntry_items (l : List Entry) (f : Feed) (now : GoTime) :
    (l.foldl (fun acc e => acc.addEntry e now) f).items = f.items ++ l := by
  induction l generalizing f with
  | nil => simp
  | cons e rest ih =>
    rw [List.foldl_cons, ih]
    simp [Feed.addEntry]

theorem cap_eq_take (l : List Entry) :
    (if l.length > 100 then l.take 100 else l) = l.take 100 := by
  by_cases h : l.length > 100
  · simp [h]
  · rw [if_neg h]
    exact (List.take_of_length_le (by omega)).symm

theorem publishedItems_fetch (agg : Aggregator) (f0 : Feed) (results : List FetchResult)
    (clock : Nat → GoTime) (pubNow : GoTime) (sortFn : List Entry → List Entry)
    (h0 : agg.aggregatedFeed = some f0) :
    publishedItems (agg.fetchAllFeeds results clock pubNow sortFn) =
      (sortFn (collectedEntries agg clock results)).take 100 := by
  unfold Aggregator.fetchAllFeeds
  rw [h0]
  simp only [publishedItems]
  rw [foldl_addEntry_items]
  simp only [newFeed, Feed.setDescription, Feed.setLanguage, collectedEntries]
  rw [List.nil_append]
  exact cap_eq_take _

theorem sources_fetch (agg : Aggregator) (f0 : Feed) (results : List FetchResult)
    (clock : Nat → GoTime) (pubNow : GoTime) (sortFn : List Entry → List Entry)
    (h0 : agg.aggregatedFeed = some f0) :
    ∃ a1 : Aggregator, agg.fetchAllFeeds results clock pubNow sortFn = some (.ok a1) ∧
      a1.sources = sourcesAfter agg clock results ∧
      publishedItems (some (Except.ok a1)) =
        (sortFn (collectedEntries agg clock results)).take 100 := by
  have hp := publishedItems_fetch agg f0 results clock pubNow sortFn h0
  unfold Aggregator.fetchAllFeeds at hp ⊢
  rw [h0] at hp ⊢
  exact ⟨_, rfl, rfl, hp⟩

theorem processResults_all_failed (clock : Nat → GoTime) :
    ∀ (rs : List FetchResult) (k : Nat) (S : List FeedSource) (acc : List Entry),
      (∀ r ∈ rs, r.failed = true) →
      (processResults clock k S acc rs).2 = acc := by
  intro rs
  induction rs with
  | nil => intro k S acc _; rfl
  | cons r rest ih =>
    intro k S acc h
    have hr : r.failed = true := h r (by simp)
    simp only [processResults]
    cases hres : r.res with
    | error msg =>
      simp only [applyResult, hres]
      exact ih _ _ _ (fun x hx => h x (by simp [hx]))
    | ok fd => simp [FetchResult.failed, hres] at hr

/-- C1 counterexample: invoked with zero registered sources, the cycle
returns success (a nil error) and publishes an empty feed — the claimed
error return does not exist (`FetchAllFeeds` has no failure path). -/
theorem c1_counterexample :
    (newAggregator "Tech News Aggregator" "http://localhost:8181/feed.json"
        ⟨1700000000, 0⟩).sources = [] ∧
    (∃ a1 : Aggregator,
      (newAggregator "Tech News Aggregator" "http://localhost:8181/feed.json"
        ⟨1700000000, 0⟩).fetchAllFeeds [] (fun _ => ⟨1700000001, 0⟩) ⟨1700000002, 0⟩
          sortEntriesGo = some (.ok a1)) ∧
    publishedItems ((newAggregator "Tech News Aggregator" "http://localhost:8181/feed.json"
        ⟨1700000000, 0⟩).fetchAllFeeds [] (fun _ => ⟨1700000001, 0⟩) ⟨1700000002, 0⟩
          sortEntriesGo) = [] :=
  ⟨rfl, ⟨_, rfl⟩, by decide⟩

/-- C1 (amended): `FetchAllFeeds` never returns an error — with zero sources
it succeeds and publishes an empty feed, and with any sources it succeeds
even when every per-source fetch fails, in which case the published merged
feed is empty. (It would crash only if the published-feed pointer were nil,
which `NewAggregator` precludes.) -/
theorem c1_cycle_never_fails (agg : Aggregator) (f0 : Feed)
    (results : List FetchResult) (clock : Nat → GoTime) (pubNow : GoTime)
    (sortFn : List Entry → List Entry)
    (h0 : agg.aggregatedFeed = some f0) :
    (∃ a1 : Aggregator, agg.fetchAllFeeds results clock pubNow sortFn = some (.ok a1)) ∧
    ((∀ r ∈ results, r.failed = true) →
      SortSliceOK (collectedEntries agg clock results)
        (sortFn (collectedEntries agg clock results)) →
      publishedItems (agg.fetchAllFeeds results clock pubNow sortFn) = []) := by
  constructor
  · unfold Aggregator.fetchAllFeeds
    rw [h0]
    exact ⟨_, rfl⟩
  · intro hfail hsort
    rw [publishedItems_fetch agg f0 results clock pubNow sortFn h0]
    have hcol : collectedEntries agg clock results = [] :=
      processResults_all_failed clock results 0 agg.sources [] hfail
    rw [hcol] at hsort ⊢
    rw [List.Perm.eq_nil hsort.1]
    rfl

/-- Source fixture: one registered source. -/
def c1Src : FeedSource :=
  { url := "http://localhost:8081/feed.json", name := "Feed 01",
    description := "News", lastFetch := goTimeZero, status := "new", errorMsg := "" }

/-- Aggregator fixture with one source. -/
def c1Agg : Aggregator :=
  { sources := [c1Src],
    aggregatedFeed := some (newFeed "Agg" "http://localhost:8181/feed.json" ⟨1700000000, 0⟩) }

/-- C1 witness: a one-source cycle whose only fetch fails still succeeds and
publishes an empty feed. -/
theorem c1_cycle_never_fails_witness :
    (∃ a1 : Aggregator, c1Agg.fetchAllFeeds [⟨0, .error "connection refused"⟩]
      (fun _ => ⟨1700000001, 0⟩) ⟨1700000002, 0⟩ sortEntriesGo = some (.ok a1)) ∧
    ((∀ r ∈ [(⟨0, .error "connection refused"⟩ : FetchResult)], r.failed = true) →
      SortSliceOK (collectedEntries c1Agg (fun _ => ⟨1700000001, 0⟩) [⟨0, .error "connection refused"⟩])
        (sortEntriesGo (collectedEntries c1Agg (fun _ => ⟨1700000001, 0⟩) [⟨0, .error "connection refused"⟩])) →
      publishedItems (c1Agg.fetchAllFeeds [⟨0, .error "connection refused"⟩]
        (fun _ => ⟨1700000001, 0⟩) ⟨1700000002, 0⟩ sortEntriesGo) = []) :=
  c1_cycle_never_fails c1Agg _ _ _ _ _ rfl

theorem etagHeader_resp304 (t : GoTime) (etag : String) :
    etagHeader (resp304 t etag) = some etag := rfl

theorem etagHeader_resp200 (f : Feed) (t : GoTime) (etag : String) :
    etagHeader (resp200 f t etag) = some etag := rfl

theorem serve_of_eq (f : Feed) (t : GoTime) (r : Request)
    (hf : f.lastUpdated = some t)
    (h : r.ifNoneMatch = etagOf t.unix f.items.length) :
    f.serveHTTP r = some (resp304 t (etagOf t.unix f.items.length)) := by
  unfold Feed.serveHTTP
  rw [hf]
  simp [h]

theorem serve_of_ne (f : Feed) (t : GoTime) (r : Request)
    (hf : f.lastUpdated = some t)
    (h : r.ifNoneMatch ≠ etagOf t.unix f.items.length) :
    f.serveHTTP r = some (resp200 f t (etagOf t.unix f.items.length)) := by
  unfold Feed.serveHTTP
  rw [hf]
  simp only [if_neg h]

theorem etagHeader_serve (f : Feed) (t : GoTime) (r : Request)
    (hf : f.lastUpdated = some t) :
    (f.serveHTTP r).bind etagHeader = some (etagOf t.unix f.items.length) := by
  by_cases h : r.ifNoneMatch = etagOf t.unix f.items.length
  · rw [serve_of_eq f t r hf h, Option.some_bind, etagHeader_resp304]
  · rw [serve_of_ne f t r hf h, Option.some_bind, etagHeader_resp200]

/-- C6: the ETag served for a feed is a deterministic function of exactly
its last-updated timestamp and item count — two feeds agreeing on both (for
any requests) serve the same ETag; a request whose If-None-Match equals the
current ETag exactly gets 304 Not Modified with no body; any other request
gets 200 with the full JSON document, a Last-Modified header derived from
the last-updated timestamp, and the computed ETag. -/
theorem c6_conditional_get (f g : Feed) (t u : GoTime) (r r2 : Request)
    (hf : f.lastUpdated = some t) (hg : g.lastUpdated = some u)
    (hsec : t.unix = u.unix) (hlen : f.items.length = g.items.length) :
    ((f.serveHTTP r).bind etagHeader = (g.serveHTTP r2).bind etagHeader) ∧
    (r.ifNoneMatch = etagOf t.unix f.items.length →
      f.serveHTTP r = some (resp304 t (etagOf t.unix f.items.length))) ∧
    (r.ifNoneMatch ≠ etagOf t.unix f.items.length →
      ∃ resp, f.serveHTTP r = some resp ∧ resp.status = 200 ∧ resp.body = f.toJSON ∧
        ("Last-Modified", httpTimeFormat t) ∈ resp.headers ∧
        ("ETag", etagOf t.unix f.items.length) ∈ resp.headers) := by
  refine ⟨?_, ?_, ?_⟩
  · rw [etagHeader_serve f t r hf, etagHeader_serve g u r2 hg, hsec, hlen]
  · intro h
    exact serve_of_eq f t r hf h
  · intro h
    refine ⟨_, serve_of_ne f t r hf h, rfl, rfl, ?_, ?_⟩
    · simp [resp200, serveHeaders]
    · simp [resp200, serveHeaders]

/-- Feed fixture for the C6 witness. -/
def c6FeedA : Feed := newFeed "A" "https://a.example/f.json" ⟨1700000000, 5⟩

/-- Feed fixture for the C6 witness: different metadata and even a different
last-updated nanosecond component, but the same Unix second and item count
as `c6FeedA`. -/
def c6FeedB : Feed :=
  (newFeed "B" "https://b.example/f.json" ⟨1700000000, 7⟩).setDescription "other"

/-- C6 witness: the conditional-GET theorem at two concrete feeds and
requests. -/
theorem c6_conditional_get_witness :
    ((c6FeedA.serveHTTP ⟨""⟩).bind etagHeader = (c6FeedB.serveHTTP ⟨"x"⟩).bind etagHeader) ∧
    ((Request.mk "").ifNoneMatch = etagOf (GoTime.mk 1700000000 5).unix c6FeedA.items.length →
      c6FeedA.serveHTTP ⟨""⟩ = some (resp304 ⟨1700000000, 5⟩
        (etagOf (GoTime.mk 1700000000 5).unix c6FeedA.items.length))) ∧
    ((Request.mk "").ifNoneMatch ≠ etagOf (GoTime.mk 1700000000 5).unix c6FeedA.items.length →
      ∃ resp, c6FeedA.serveHTTP ⟨""⟩ = some resp ∧ resp.status = 200 ∧
        resp.body = c6FeedA.toJSON ∧
        ("Last-Modified", httpTimeFormat ⟨1700000000, 5⟩) ∈ resp.headers ∧
        ("ETag", etagOf (GoTime.mk 1700000000 5).unix c6FeedA.items.length) ∈ resp.headers) :=
  c6_conditional_get c6FeedA c6FeedB ⟨1700000000, 5⟩ ⟨1700000000, 7⟩ ⟨""⟩ ⟨"x"⟩
    rfl rfl rfl rfl

/-- Entry fixture: id "e i", title "T i", valid URL, published at the given
Unix second. -/
def cEntry (i : Nat) (sec : Int) : Entry :=
  { id := "e" ++ toString i, title := "T" ++ toString i, content := "",
    summary := "", url := "https://src.example/" ++ toString i,
    published := ⟨sec, 0⟩, updated := none, author := none, tags := [],
    category := "", image := "", readingTime := 0 }

theorem validateItems_eq_none (l : List Entry) :
    ∀ (i : Nat) (seen : List String), validateItems l i seen = none →
      (l.map Entry.id).Nodup ∧ ∀ x ∈ l.map Entry.id, x ∉ seen := by
  induction l with
  | nil => intro i seen _; exact ⟨List.nodup_nil, by simp⟩
  | cons e rest ih =>
    intro i seen h
    simp only [validateItems] at h
    cases hv : e.validate with
    | some ve => rw [hv] at h; simp at h
    | none =>
      rw [hv] at h
      by_cases hm : e.id ∈ seen
      · rw [if_pos hm] at h; simp at h
      · rw [if_neg hm] at h
        obtain ⟨hnd, hns⟩ := ih (i + 1) (e.id :: seen) h
        have hid : e.id ∉ rest.map Entry.id := by
          intro hmem
          exact hns e.id hmem (by simp)
        refine ⟨?_, ?_⟩
        · rw [List.map_cons]
          exact List.nodup_cons.mpr ⟨hid, hnd⟩
        · intro x hx
          rcases (by simpa using hx : x = e.id ∨ x ∈ rest.map Entry.id) with rfl | hx2
          · exact hm
          · have := hns x hx2
            simp only [List.mem_cons] at this
            exact fun hxs => this (Or.inr hxs)

theorem validateItems_firstDup (l : List Entry) :
    ∀ (i : Nat) (seen : List String), (∀ e ∈ l, e.validate = none) →
      validateItems l i seen =
        (firstDupFrom seen l).map
          (fun d => FeedError.vErr ⟨"items", "duplicate entry ID: " ++ d⟩) := by
  induction l with
  | nil => intro i seen _; rfl
  | cons e rest ih =>
    intro i seen hall
    have he : e.validate = none := hall e (by simp)
    simp only [validateItems, firstDupFrom, he]
    by_cases hm : e.id ∈ seen
    · simp [hm]
    · rw [if_neg hm, if_neg hm]
      exact ih (i + 1) (e.id :: seen) (fun x hx => hall x (by simp [hx]))

/-- Feed fixture for the C8 counterexample: two entries share id "e0" and
the title is empty. -/
def c8DupFeed : Feed :=
  { version := "1.0", title := "", description := "", homePageURL := "",
    feedURL := "https://x.example/f.json", language := "", author := none,
    lastUpdated := none,
    items := [cEntry 0 1735000001, cEntry 0 1735000002] }

/-- C8 counterexample: a feed whose items contain two entries with identical
identifiers but whose title is empty fails validation with an error
referencing "title", not "items" — the claim that the resulting error
references "items" for all such feeds is false. -/
theorem c8_counterexample :
    ¬ (c8DupFeed.items.map Entry.id).Nodup ∧
    c8DupFeed.validate = some (.vErr ⟨"title", "title is required"⟩) := by
  constructor
  · decide
  · decide

/-- C8 (amended): a feed whose items contain duplicate identifiers never
validates; and when every earlier check passes — supported version,
non-blank title, valid URLs, every entry individually valid — the
validation error references field "items" and reports the first duplicate
identifier in first-seen order. -/
theorem c8_duplicate_ids (f : Feed) :
    (¬ (f.items.map Entry.id).Nodup → f.validate ≠ none) ∧
    (f.version = Version → trimSpace f.title ≠ "" → isValidURL f.feedURL = true →
      (f.homePageURL = "" ∨ isValidURL f.homePageURL = true) →
      (∀ e ∈ f.items, e.validate = none) →
      ∀ d, firstDupId f.items = some d →
        f.validate = some (.vErr ⟨"items", "duplicate entry ID: " ++ d⟩)) := by
  constructor
  · intro hdup hnone
    unfold Feed.validate at hnone
    split_ifs at hnone
    exact hdup (validateItems_eq_none f.items 0 [] hnone).1
  · intro hv ht hu hh hall d hd
    unfold Feed.validate
    rw [if_neg (fun hne => hne hv), if_neg ht, if_neg (by simp [hu]),
      if_neg (by rcases hh with h | h <;> simp [h]),
      validateItems_firstDup f.items 0 [] hall]
    unfold firstDupId at hd
    rw [hd]
    rfl

/-- Feed fixture for the C8 witness: everything valid except a duplicated
identifier (entries 0 and 2 share id "e0"). -/
def c8GoodFeed : Feed :=
  { version := "1.0", title := "Feed", description := "", homePageURL := "",
    feedURL := "https://x.example/f.json", language := "", author := none,
    lastUpdated := some ⟨1735000000, 0⟩,
    items := [cEntry 0 1735000001, cEntry 1 1735000002, cEntry 0 1735000003] }

/-- C8 witness: the amended claim at a concrete feed — validation fails and
the error references "items" with the first-seen duplicate id "e0". -/
theorem c8_duplicate_ids_witness :
    c8GoodFeed.validate ≠ none ∧
    c8GoodFeed.validate = some (.vErr ⟨"items", "duplicate entry ID: " ++ "e0"⟩) :=
  ⟨(c8_duplicate_ids c8GoodFeed).1 (by decide),
   (c8_duplicate_ids c8GoodFeed).2 rfl (by decide) (by decide)
     (Or.inl rfl) (by decide) "e0" (by decide)⟩

/-- C2: after any cycle the published feed's items are exactly the first 100
entries of the sorted merged sequence (the cap keeps the first 100 after
sorting and discards the remainder), sorted by published timestamp
descending, hence of length at most 100 regardless of how many entries were
collected. -/
theorem c2_published_sorted_capped (agg : Aggregator) (f0 : Feed)
    (results : List FetchResult) (clock : Nat → GoTime) (pubNow : GoTime)
    (sortFn : List Entry → List Entry)
    (h0 : agg.aggregatedFeed = some f0)
    (hsort : SortSliceOK (collectedEntries agg clock results)
      (sortFn (collectedEntries agg clock results))) :
    publishedItems (agg.fetchAllFeeds results clock pubNow sortFn) =
      (sortFn (collectedEntries agg clock results)).take 100 ∧
    (publishedItems (agg.fetchAllFeeds results clock pubNow sortFn)).Pairwise
      (fun x y => entryLess y x = false) ∧
    (publishedItems (agg.fetchAllFeeds results clock pubNow sortFn)).length ≤ 100 := by
  have hp := publishedItems_fetch agg f0 results clock pubNow sortFn h0
  refine ⟨hp, ?_, ?_⟩
  · rw [hp]
    exact List.Pairwise.sublist (List.take_sublist _ _) hsort.2
  · rw [hp]
    exact List.length_take_le _ _

/-- Source fixture for the C2 witness. -/
def c2Src : FeedSource :=
  { url := "http://localhost:8081/feed.json", name := "Feed 01",
    description := "News", lastFetch := goTimeZero, status := "new", errorMsg := "" }

/-- Remote feed fixture for the C2 witness: two entries, older first. -/
def c2Feed : Feed :=
  { version := "1.0", title := "Source Feed", description := "", homePageURL := "",
    feedURL := "http://localhost:8081/feed.json", language := "", author := none,
    lastUpdated := some ⟨1735000000, 0⟩,
    items := [cEntry 1 1735000100, cEntry 2 1735000200] }

/-- Aggregator fixture for the C2 witness. -/
def c2Agg : Aggregator :=
  { sources := [c2Src],
    aggregatedFeed := some (newFeed "Agg" "http://localhost:8181/feed.json" ⟨1700000000, 0⟩) }

/-- Fetch results for the C2 witness. -/
def c2Results : List FetchResult := [⟨0, .ok c2Feed⟩]

/-- Arrival clock for the C2 witness. -/
def c2Clock : Nat → GoTime := fun k => ⟨1735000500 + k, 0⟩

/-- C2 witness: the cap-and-sort theorem at a concrete one-source cycle run
with the concrete Go sorting algorithm. -/
theorem c2_published_sorted_capped_witness :
    publishedItems (c2Agg.fetchAllFeeds c2Results c2Clock ⟨1735000600, 0⟩ sortEntriesGo) =
      (sortEntriesGo (collectedEntries c2Agg c2Clock c2Results)).take 100 ∧
    (publishedItems (c2Agg.fetchAllFeeds c2Results c2Clock ⟨1735000600, 0⟩ sortEntriesGo)).Pairwise
      (fun x y => entryLess y x = false) ∧
    (publishedItems (c2Agg.fetchAllFeeds c2Results c2Clock ⟨1735000600, 0⟩ sortEntriesGo)).length ≤ 100 :=
  c2_published_sorted_capped c2Agg _ c2Results c2Clock ⟨1735000600, 0⟩ sortEntriesGo rfl
    ⟨by decide, by decide⟩

/-- C3 (amended): the published feed is guaranteed only to be a
descending-sorted sub-permutation of the merged input sequence; the relative
order of entries with equal published timestamps is whatever the unstable
`sort.Slice` produces and is not in general their source-collection order
(see the counterexample for a concrete inversion). -/
theorem c3_tie_order_unspecified (agg : Aggregator) (f0 : Feed)
    (results : List FetchResult) (clock : Nat → GoTime) (pubNow : GoTime)
    (sortFn : List Entry → List Entry)
    (h0 : agg.aggregatedFeed = some f0)
    (hsort : SortSliceOK (collectedEntries agg clock results)
      (sortFn (collectedEntries agg clock results))) :
    (publishedItems (agg.fetchAllFeeds results clock pubNow sortFn)).Pairwise
      (fun x y => entryLess y x = false) ∧
    (publishedItems (agg.fetchAllFeeds results clock pubNow sortFn)).Subperm
      (collectedEntries agg clock results) := by
  have hp := publishedItems_fetch agg f0 results clock pubNow sortFn h0
  constructor
  · rw [hp]
    exact List.Pairwise.sublist (List.take_sublist _ _) hsort.2
  · rw [hp]
    exact ((List.take_sublist _ _).subperm).trans hsort.1.subperm

/-- Source fixture for the C3 counterexample. -/
def c3Src : FeedSource :=
  { url := "http://localhost:8082/feed.json", name := "Feed 02",
    description := "Social news", lastFetch := goTimeZero, status := "new", errorMsg := "" }

/-- Remote feed for the C3 counterexample: 13 valid entries whose published
seconds (offsets from a common base) are 1,4,4,1,2,1,5,4,1,5,1,2,5 — in
particular e6 and e9 share the newest timestamp and e6 comes first. -/
def c3Feed : Feed :=
  { version := "1.0", title := "Source Feed", description := "", homePageURL := "",
    feedURL := "http://localhost:8082/feed.json", language := "", author := none,
    lastUpdated := some ⟨1735000000, 0⟩,
    items := [cEntry 0 1735000001, cEntry 1 1735000004, cEntry 2 1735000004,
      cEntry 3 1735000001, cEntry 4 1735000002, cEntry 5 1735000001,
      cEntry 6 1735000005, cEntry 7 1735000004, cEntry 8 1735000001,
      cEntry 9 1735000005, cEntry 10 1735000001, cEntry 11 1735000002,
      cEntry 12 1735000005] }

/-- Aggregator fixture for the C3 counterexample. -/
def c3Agg : Aggregator :=
  { sources := [c3Src],
    aggregatedFeed := some (newFeed "Agg" "http://localhost:8181/feed.json" ⟨1700000000, 0⟩) }

/-- Fetch results for the C3 counterexample. -/
def c3Results : List FetchResult := [⟨0, .ok c3Feed⟩]

/-- Arrival clock for the C3 counterexample. -/
def c3Clock : Nat → GoTime := fun k => ⟨1735000600 + k, 0⟩

/-- The merged input sequence of the C3 counterexample cycle. -/
def c3Col : List Entry := collectedEntries c3Agg c3Clock c3Results

/-- The published items of the C3 counterexample cycle under the concrete
Go 1.19+ `sort.Slice` algorithm. -/
def c3Out : List Entry :=
  publishedItems (c3Agg.fetchAllFeeds c3Results c3Clock ⟨1735000700, 0⟩ sortEntriesGo)

set_option maxRecDepth 8000 in
/-- C3 counterexample: the claim — equal-timestamp entries keep their merged
input order in the published feed — fails on a concrete cycle: in the merged
sequence entry e6 (position 6) precedes e9 (position 9) and both share the
same published timestamp, yet the published feed lists e9 first (positions 0
and 1). The source feed is valid, so this is a feed the fetch path accepts. -/
theorem c3_counterexample :
    c3Feed.validate = none ∧
    (c3Col.getD 6 defaultEntry).id = "e6" ∧
    (c3Col.getD 9 defaultEntry).id = "e9" ∧
    (c3Col.getD 6 defaultEntry).published = (c3Col.getD 9 defaultEntry).published ∧
    (c3Out.getD 0 defaultEntry).id = "e9" ∧
    (c3Out.getD 1 defaultEntry).id = "e6" := by
  decide

/-- C3 witness: the amended guarantee at the same concrete cycle. -/
theorem c3_tie_order_unspecified_witness :
    (publishedItems (c3Agg.fetchAllFeeds c3Results c3Clock ⟨1735000700, 0⟩ sortEntriesGo)).Pairwise
      (fun x y => entryLess y x = false) ∧
    (publishedItems (c3Agg.fetchAllFeeds c3Results c3Clock ⟨1735000700, 0⟩ sortEntriesGo)).Subperm
      (collectedEntries c3Agg c3Clock c3Results) :=
  c3_tie_order_unspecified c3Agg _ c3Results c3Clock ⟨1735000700, 0⟩ sortEntriesGo rfl
    ⟨by decide, by decide⟩

theorem getD_set {α : Type} (S : List α) (i j : Nat) (v d : α) :
    (S.set i v).getD j d = if i = j ∧ i < S.length then v else S.getD j d := by
  induction S generalizing i j with
  | nil => simp
  | cons s ss ih =>
    cases i with
    | zero =>
      cases j with
      | zero => simp
      | succ j' => simp
    | succ i' =>
      cases j with
      | zero => simp
      | succ j' =>
        simp only [List.set_cons_succ, List.getD_cons_succ, List.length_cons]
        rw [ih]
        by_cases h : i' = j' ∧ i' < ss.length
        · rw [if_pos h, if_pos (by omega)]
        · rw [if_neg h, if_neg (by omega)]

theorem processResults_length (clock : Nat → GoTime) :
    ∀ (rs : List FetchResult) (k : Nat) (S : List FeedSource) (acc : List Entry),
      (processResults clock k S acc rs).1.length = S.length := by
  intro rs
  induction rs with
  | nil => intro k S acc; rfl
  | cons r rest ih =>
    intro k S acc
    simp only [processResults]
    rw [ih]
    cases hres : r.res <;> simp [applyResult, hres, List.length_set]

theorem applyResult_other (now : GoTime) (S : List FeedSource) (acc : List Entry)
    (r0 : FetchResult) (i : Nat) (h : i ≠ r0.index) :
    (applyResult now S acc r0).1.getD i defaultSource = S.getD i defaultSource := by
  cases hres : r0.res with
  | error msg =>
    simp only [applyResult, hres]
    rw [getD_set, if_neg (fun hc => h hc.1.symm)]
  | ok fd =>
    simp only [applyResult, hres]
    rw [getD_set, if_neg (fun hc => h hc.1.symm)]

theorem applyResult_name (now : GoTime) (S : List FeedSource) (acc : List Entry)
    (r0 : FetchResult) (i : Nat) :
    ((applyResult now S acc r0).1.getD i defaultSource).name =
      (S.getD i defaultSource).name := by
  cases hres : r0.res with
  | error msg =>
    simp only [applyResult, hres]
    rw [getD_set]
    split_ifs with h
    · rcases h with ⟨rfl, _⟩; rfl
    · rfl
  | ok fd =>
    simp only [applyResult, hres]
    rw [getD_set]
    split_ifs with h
    · rcases h with ⟨rfl, _⟩; rfl
    · rfl

theorem processResults_untouched (clock : Nat → GoTime) :
    ∀ (rs : List FetchResult) (k : Nat) (S : List FeedSource) (acc : List Entry) (i : Nat),
      i ∉ rs.map FetchResult.index →
      (processResults clock k S acc rs).1.getD i defaultSource = S.getD i defaultSource := by
  intro rs
  induction rs with
  | nil => intro k S acc i _; rfl
  | cons r rest ih =>
    intro k S acc i hni
    simp only [List.map_cons, List.mem_cons, not_or] at hni
    simp only [processResults]
    rw [ih _ _ _ _ hni.2]
    exact applyResult_other _ _ _ _ _ hni.1

theorem processResults_processed (clock : Nat → GoTime) :
    ∀ (rs : List FetchResult) (k : Nat) (S : List FeedSource) (acc : List Entry)
      (r : FetchResult), r ∈ rs → (rs.map FetchResult.index).Nodup →
      (∀ x ∈ rs, x.index < S.length) →
      ∃ m, m < rs.length ∧
        (processResults clock k S acc rs).1.getD r.index defaultSource =
          updatedSource (S.getD r.index defaultSource) r (clock (k + m)) := by
  intro rs
  induction rs with
  | nil => intro k S acc r h; exact absurd h (by simp)
  | cons r0 rest ih =>
    intro k S acc r hmem hnd hvalid
    have hnotin : r0.index ∉ rest.map FetchResult.index := by
      rw [List.map_cons, List.nodup_cons] at hnd
      exact hnd.1
    rcases List.mem_cons.mp hmem with rfl | hmem'
    · refine ⟨0, by simp, ?_⟩
      simp only [processResults]
      rw [processResults_untouched clock rest _ _ _ _ hnotin, Nat.add_zero]
      have hlt : r.index < S.length := hvalid r (by simp)
      cases hres : r.res with
      | error msg =>
        simp only [applyResult, hres, updatedSource]
        rw [getD_set, if_pos ⟨rfl, hlt⟩]
      | ok fd =>
        simp only [applyResult, hres, updatedSource]
        rw [getD_set, if_pos ⟨rfl, hlt⟩]
    · have hne : r.index ≠ r0.index := by
        intro hc
        exact hnotin (hc ▸ List.mem_map_of_mem FetchResult.index hmem')
      have hnd' : (rest.map FetchResult.index).Nodup := by
        rw [List.map_cons, List.nodup_cons] at hnd
        exact hnd.2
      have hvalid' : ∀ x ∈ rest, x.index < (applyResult (clock k) S acc r0).1.length := by
        intro x hx
        have : (applyResult (clock k) S acc r0).1.length = S.length := by
          cases hres : r0.res <;> simp [applyResult, hres, List.length_set]
        rw [this]
        exact hvalid x (by simp [hx])
      obtain ⟨m, hm, heq⟩ := ih (k + 1) (applyResult (clock k) S acc r0).1
        (applyResult (clock k) S acc r0).2 r hmem' hnd' hvalid'
      refine ⟨m + 1, by simpa using Nat.succ_lt_succ hm, ?_⟩
      simp only [processResults]
      rw [heq, applyResult_other _ _ _ _ _ hne]
      have : k + 1 + m = k + (m + 1) := by omega
      rw [this]

theorem processResults_entries (clock : Nat → GoTime) :
    ∀ (rs : List FetchResult) (k : Nat) (S : List FeedSource) (acc : List Entry)
      (e : Entry), e ∈ (processResults clock k S acc rs).2 →
      e ∈ acc ∨ ∃ r ∈ rs, ∃ fd, r.res = .ok fd ∧
        e ∈ fd.items.map (enrichEntry ((S.getD r.index defaultSource).name)) := by
  intro rs
  induction rs with
  | nil => intro k S acc e h; exact Or.inl h
  | cons r0 rest ih =>
    intro k S acc e h
    simp only [processResults] at h
    rcases ih _ _ _ e h with hacc | ⟨r, hr, fd, hres, hmem⟩
    · cases hres0 : r0.res with
      | error msg =>
        simp only [applyResult, hres0] at hacc
        exact Or.inl hacc
      | ok fd0 =>
        simp only [applyResult, hres0] at hacc
        rcases List.mem_append.mp hacc with h1 | h2
        · exact Or.inl h1
        · refine Or.inr ⟨r0, by simp, fd0, hres0, ?_⟩
          have hname :
              (((S.set r0.index { S.getD r0.index defaultSource with
                  lastFetch := clock k, status := "active",
                  errorMsg := "" }).getD r0.index defaultSource)).name =
                (S.getD r0.index defaultSource).name := by
            rw [getD_set]
            split_ifs with hc
            · rfl
            · rfl
          rwa [hname] at h2
    · refine Or.inr ⟨r, by simp [hr], fd, hres, ?_⟩
      rwa [applyResult_name] at hmem

theorem countP_getD (l : List FeedSource) (p : FeedSource → Bool) :
    l.countP p = (List.range l.length).countP (fun i => p (l.getD i defaultSource)) := by
  induction l with
  | nil => simp
  | cons s ss ih =>
    rw [List.length_cons, List.range_succ_eq_map, List.countP_cons, List.countP_cons,
      List.countP_map]
    simp only [List.getD_cons_zero, List.getD_cons_succ, Function.comp_def]
    rw [ih]

theorem countStatus_eq_countP (l : List FeedSource) (s : String) :
    countStatus l s = l.countP (fun src => src.status == s) :=
  (List.countP_eq_length_filter _ _).symm

theorem countStatus_active_error (l : List FeedSource)
    (h : ∀ src ∈ l, src.status = "active" ∨ src.status = "error") :
    countStatus l "active" + countStatus l "error" = l.length := by
  induction l with
  | nil => rfl
  | cons s ss ih =>
    have ih' := ih (fun x hx => h x (by simp [hx]))
    rw [countStatus_eq_countP, countStatus_eq_countP, List.countP_cons, List.countP_cons]
    rw [countStatus_eq_countP, countStatus_eq_countP] at ih'
    rcases h s (by simp) with hs | hs
    · have h1 : (s.status == "active") = true := by rw [hs]; rfl
      have h2 : (s.status == "error") = false := by rw [hs]; rfl
      rw [h1, h2]
      simp only [List.length_cons, if_true, Bool.false_eq_true, if_false, add_zero]
      omega
    · have h1 : (s.status == "active") = false := by rw [hs]; rfl
      have h2 : (s.status == "error") = true := by rw [hs]; rfl
      rw [h1, h2]
      simp only [List.length_cons, if_true, Bool.false_eq_true, if_false, add_zero]
      omega

theorem countP_congr_mem {α : Type} (l : List α) (p q : α → Bool)
    (h : ∀ a ∈ l, p a = q a) : l.countP p = l.countP q := by
  induction l with
  | nil => rfl
  | cons a as ih =>
    rw [List.countP_cons, List.countP_cons, h a (by simp),
      ih (fun x hx => h x (by simp [hx]))]

/-- C4: after a cycle over N sources (the arrival indices being a
permutation of the source indices) of which exactly K fail, every source's
status is "active" or "error", active + error counts sum to N, the error
count equals K (the number of failed results), every source's LastFetch has
been updated to one of this cycle's clock reads, and every entry of the
published feed originates from a successful source's fetched feed (entries
of failed sources are never merged). -/
theorem c4_cycle_bookkeeping (agg : Aggregator) (f0 : Feed)
    (results : List FetchResult) (clock : Nat → GoTime) (pubNow : GoTime)
    (sortFn : List Entry → List Entry)
    (h0 : agg.aggregatedFeed = some f0)
    (hperm : (results.map FetchResult.index).Perm (List.range agg.sources.length))
    (hsort : SortSliceOK (collectedEntries agg clock results)
      (sortFn (collectedEntries agg clock results))) :
    (sourcesAfter agg clock results).length = agg.sources.length ∧
    (∀ i < agg.sources.length,
      ((sourcesAfter agg clock results).getD i defaultSource).status = "active" ∨
      ((sourcesAfter agg clock results).getD i defaultSource).status = "error") ∧
    countStatus (sourcesAfter agg clock results) "active" +
      countStatus (sourcesAfter agg clock results) "error" = agg.sources.length ∧
    countStatus (sourcesAfter agg clock results) "error" =
      (results.filter FetchResult.failed).length ∧
    (∀ i < agg.sources.length, ∃ k < results.length,
      ((sourcesAfter agg clock results).getD i defaultSource).lastFetch = clock k) ∧
    (∀ e ∈ publishedItems (agg.fetchAllFeeds results clock pubNow sortFn),
      ∃ r ∈ results, ∃ fd, r.res = .ok fd ∧
        e ∈ fd.items.map (enrichEntry ((agg.sources.getD r.index defaultSource).name))) := by
  have hnodup : (results.map FetchResult.index).Nodup :=
    hperm.nodup_iff.mpr (List.nodup_range _)
  have hvalid : ∀ x ∈ results, x.index < agg.sources.length := by
    intro x hx
    have h1 : x.index ∈ results.map FetchResult.index := List.mem_map_of_mem _ hx
    have h2 := hperm.mem_iff.mp h1
    simpa [List.mem_range] using h2
  have hcover : ∀ i, i < agg.sources.length → ∃ r ∈ results, r.index = i := by
    intro i hi
    have h1 : i ∈ results.map FetchResult.index :=
      hperm.mem_iff.mpr (List.mem_range.mpr hi)
    obtain ⟨r, hr, hri⟩ := List.mem_map.mp h1
    exact ⟨r, hr, hri⟩
  have hchar : ∀ r ∈ results, ∃ m, m < results.length ∧
      (sourcesAfter agg clock results).getD r.index defaultSource =
        updatedSource (agg.sources.getD r.index defaultSource) r (clock m) := by
    intro r hr
    obtain ⟨m, hm, heq⟩ :=
      processResults_processed clock results 0 agg.sources [] r hr hnodup hvalid
    rw [Nat.zero_add] at heq
    exact ⟨m, hm, heq⟩
  have hlen : (sourcesAfter agg clock results).length = agg.sources.length :=
    processResults_length clock results 0 agg.sources []
  have hstatus : ∀ r ∈ results,
      ((sourcesAfter agg clock results).getD r.index defaultSource).status =
        (if r.failed then "error" else "active") := by
    intro r hr
    obtain ⟨m, _, heq⟩ := hchar r hr
    rw [heq]
    cases hres : r.res <;> simp [updatedSource, FetchResult.failed, hres]
  have hidx : ∀ i < agg.sources.length,
      ((sourcesAfter agg clock results).getD i defaultSource).status = "active" ∨
      ((sourcesAfter agg clock results).getD i defaultSource).status = "error" := by
    intro i hi
    obtain ⟨r, hr, rfl⟩ := hcover i hi
    rw [hstatus r hr]
    cases hf : r.failed
    · exact Or.inl (by simp)
    · exact Or.inr (by simp)
  refine ⟨hlen, hidx, ?_, ?_, ?_, ?_⟩
  · -- active + error = N
    have hmem : ∀ src ∈ sourcesAfter agg clock results,
        src.status = "active" ∨ src.status = "error" := by
      intro src hsrc
      obtain ⟨i, hi, hgi⟩ := List.mem_iff_getElem.mp hsrc
      have hgd : (sourcesAfter agg clock results).getD i defaultSource = src := by
        rw [List.getD_eq_getElem _ _ hi]
        exact hgi
      have hi' : i < agg.sources.length := hlen ▸ hi
      rw [← hgd]
      exact hidx i hi'
    rw [← hlen]
    exact countStatus_active_error _ hmem
  · -- error count = number of failed results
    rw [countStatus_eq_countP, countP_getD, hlen,
      ← hperm.countP_eq
        (fun i => ((sourcesAfter agg clock results).getD i defaultSource).status == "error"),
      List.countP_map]
    rw [countP_congr_mem results _ FetchResult.failed ?_, List.countP_eq_length_filter]
    intro r hr
    simp only [Function.comp_def]
    rw [hstatus r hr]
    cases hf : r.failed
    · rfl
    · rfl
  · -- last fetch updated
    intro i hi
    obtain ⟨r, hr, rfl⟩ := hcover i hi
    obtain ⟨m, hm, heq⟩ := hchar r hr
    refine ⟨m, hm, ?_⟩
    rw [heq]
    cases hres : r.res <;> simp [updatedSource, hres]
  · -- provenance of published entries
    intro e he
    rw [publishedItems_fetch agg f0 results clock pubNow sortFn h0] at he
    have h1 : e ∈ sortFn (collectedEntries agg clock results) :=
      List.mem_of_mem_take he
    have h2 : e ∈ collectedEntries agg clock results := hsort.1.mem_iff.mp h1
    rcases processResults_entries clock results 0 agg.sources [] e h2 with habs | hgood
    · exact absurd habs (List.not_mem_nil e)
    · exact hgood

/-- Source fixture A for the C4 witness. -/
def c4SrcA : FeedSource :=
  { url := "http://localhost:8081/feed.json", name := "Feed 01",
    description := "News", lastFetch := goTimeZero, status := "new", errorMsg := "" }

/-- Source fixture B for the C4 witness (its fetch will fail). -/
def c4SrcB : FeedSource :=
  { url := "http://localhost:8082/feed.json", name := "Feed 02",
    description := "Social news", lastFetch := goTimeZero, status := "new", errorMsg := "" }

/-- Feed fetched from source A in the C4 witness. -/
def c4FeedA : Feed :=
  { version := "1.0", title := "Source A", description := "", homePageURL := "",
    feedURL := "http://localhost:8081/feed.json", language := "", author := none,
    lastUpdated := some ⟨1735700000, 0⟩,
    items := [cEntry 1 1735686000, cEntry 2 1735772400] }

/-- Aggregator fixture for the C4 witness: two sources. -/
def c4Agg : Aggregator :=
  { sources := [c4SrcA, c4SrcB],
    aggregatedFeed := some (newFeed "Agg" "http://localhost:8181/feed.json" ⟨1700000000, 0⟩) }

/-- Fetch results for the C4 witness, in arrival order: source B's timeout
arrives first, then source A's feed. -/
def c4Results : List FetchResult :=
  [⟨1, .error "HTTP request failed: context deadline exceeded"⟩, ⟨0, .ok c4FeedA⟩]

/-- Arrival clock for the C4 witness. -/
def c4Clock : Nat → GoTime := fun k => ⟨1735800000 + k, 0⟩

/-- C4 witness: the bookkeeping theorem at a concrete two-source cycle with
exactly one failure, run with the concrete Go sorting algorithm. -/
theorem c4_cycle_bookkeeping_witness :
    (sourcesAfter c4Agg c4Clock c4Results).length = c4Agg.sources.length ∧
    (∀ i < c4Agg.sources.length,
      ((sourcesAfter c4Agg c4Clock c4Results).getD i defaultSource).status = "active" ∨
      ((sourcesAfter c4Agg c4Clock c4Results).getD i defaultSource).status = "error") ∧
    countStatus (sourcesAfter c4Agg c4Clock c4Results) "active" +
      countStatus (sourcesAfter c4Agg c4Clock c4Results) "error" = c4Agg.sources.length ∧
    countStatus (sourcesAfter c4Agg c4Clock c4Results) "error" =
      (c4Results.filter FetchResult.failed).length ∧
    (∀ i < c4Agg.sources.length, ∃ k < c4Results.length,
      ((sourcesAfter c4Agg c4Clock c4Results).getD i defaultSource).lastFetch = c4Clock k) ∧
    (∀ e ∈ publishedItems (c4Agg.fetchAllFeeds c4Results c4Clock ⟨1735800100, 0⟩ sortEntriesGo),
      ∃ r ∈ c4Results, ∃ fd, r.res = .ok fd ∧
        e ∈ fd.items.map (enrichEntry ((c4Agg.sources.getD r.index defaultSource).name))) :=
  c4_cycle_bookkeeping c4Agg _ c4Results c4Clock ⟨1735800100, 0⟩ sortEntriesGo rfl
    (by decide) ⟨by decide, by decide⟩

/-- C5 witness: both parts of the amended claim at concrete states — an
aggregator with a nil feed pointer answers 503, a freshly constructed one
answers 200 or 304. -/
theorem c5_serve_witness :
    ((Aggregator.mk [] none).serveHTTP ⟨""⟩).map Response.status = some 503 ∧
    (((newAggregator "T" "http://u.example/f.json" ⟨1700000000, 0⟩).serveHTTP
        ⟨""⟩).map Response.status = some 304 ∨
      ((newAggregator "T" "http://u.example/f.json" ⟨1700000000, 0⟩).serveHTTP
        ⟨""⟩).map Response.status = some 200) :=
  ⟨c5_serve_before_first_cycle.1 (Aggregator.mk [] none) ⟨""⟩ rfl,
   c5_serve_before_first_cycle.2 "T" "http://u.example/f.json" ⟨1700000000, 0⟩ ⟨""⟩⟩

end Beam
